import Mathlib

/-!
Verification development for the `smb-enumerate-shares` driver
(`src/index.js`). Node `Buffer` values are modelled as `List Nat` of bytes;
each read applies `% 256` (a real `Buffer` can only hold bytes). Reads that
would throw a `RangeError` in Node (offset past the end) return `none`.
`Buffer.slice` clamps and never throws, so it is total.
-/

set_option maxRecDepth 100000

namespace Smb

/-- Byte at index `i` of a buffer (0 when out of range; all in-range bytes
of a Node buffer are < 256, enforced here with `% 256`). -/
def getByte (b : List Nat) (i : Nat) : Nat := b.getD i 0 % 256

/-- `Buffer.readUInt16LE(i)`; `none` models the Node `RangeError`. -/
def readUInt16LE (b : List Nat) (i : Nat) : Option Nat :=
  if i + 2 ≤ b.length then some (getByte b i + 256 * getByte b (i + 1)) else none

/-- `Buffer.readUInt32LE(i)`; `none` models the Node `RangeError`. -/
def readUInt32LE (b : List Nat) (i : Nat) : Option Nat :=
  if i + 4 ≤ b.length then
    some (getByte b i + 256 * getByte b (i + 1) + 65536 * getByte b (i + 2)
      + 16777216 * getByte b (i + 3))
  else none

/-- `Buffer.readUInt32BE(i)`; `none` models the Node `RangeError`. -/
def readUInt32BE (b : List Nat) (i : Nat) : Option Nat :=
  if i + 4 ≤ b.length then
    some (16777216 * getByte b i + 65536 * getByte b (i + 1) + 256 * getByte b (i + 2)
      + getByte b (i + 3))
  else none

/-- The two little-endian bytes of `v % 2^16` (what `writeUInt16LE` stores). -/
def uint16LEBytes (v : Nat) : List Nat := [v % 256, v / 256 % 256]

/-- The four little-endian bytes of `v % 2^32` (what `writeUInt32LE` stores). -/
def uint32LEBytes (v : Nat) : List Nat :=
  [v % 256, v / 256 % 256, v / 65536 % 256, v / 16777216 % 256]

/-- The four big-endian bytes of `v % 2^32` (what `writeUInt32BE` stores). -/
def uint32BEBytes (v : Nat) : List Nat :=
  [v / 16777216 % 256, v / 65536 % 256, v / 256 % 256, v % 256]

/-- Overwrite bytes `i .. i + bs.length - 1` of `b` with `bs`. Models the
Node `Buffer.write*` family at in-range offsets (every write performed by
the source is in range; Node throws otherwise). -/
def writeBytes (b : List Nat) (i : Nat) (bs : List Nat) : List Nat :=
  b.take i ++ bs ++ b.drop (i + bs.length)

/-- `Buffer.slice(start, stop)` for nonnegative arguments (clamps, never
throws). -/
def listSlice (b : List Nat) (start stop : Nat) : List Nat :=
  (b.take stop).drop start

/-- Hex digit value (0 for non-hex characters, which Node treats as the end
of the hex data; the source only decodes all-hex strings). -/
def hexVal (c : Char) : Nat :=
  if '0' ≤ c ∧ c ≤ '9' then c.toNat - 48
  else if 'a' ≤ c ∧ c ≤ 'f' then c.toNat - 87
  else if 'A' ≤ c ∧ c ≤ 'F' then c.toNat - 55
  else 0

/-- Hex pairs to bytes; a trailing unpaired digit is dropped, as
`Buffer.from(s, 'hex')` does. -/
def hexPairs : List Char → List Nat
  | a :: b :: rest => (16 * hexVal a + hexVal b) :: hexPairs rest
  | _ => []

/-- `Buffer.from(s, 'hex')`. -/
def hexDecode (s : String) : List Nat := hexPairs s.data

/-- `Buffer.from(s, 'ucs2')`: UTF-16LE code units, two bytes each. (The
claims only exercise characters below 0x10000; astral characters would be
written by Node as surrogate pairs, which no claim involves.) -/
def ucs2Encode (s : String) : List Nat :=
  s.data.flatMap fun c => [c.toNat % 256, c.toNat / 256 % 256]

/-- UTF-16LE code units of a byte list (trailing odd byte dropped, as Node
does). -/
def ucs2Units : List Nat → List Nat
  | lo :: hi :: rest => (lo % 256 + 256 * (hi % 256)) :: ucs2Units rest
  | _ => []

/-- `buffer.toString('ucs2')`. Each code unit becomes the character of that
code point; the claims only involve non-surrogate BMP text, where this
matches Node exactly (`Char.ofNat` sends the surrogate range to NUL). -/
def ucs2Decode (bs : List Nat) : String :=
  String.mk ((ucs2Units bs).map Char.ofNat)

/-! ## Share-list parsing (src/index.js lines 16–24 and 229–252) -/

/-- share types (source constants `TEMPORARY`, `HIDDEN`). -/
def TEMPORARY : Nat := 0x40000000

def HIDDEN : Nat := 0x80000000

inductive ShareType where
  | DISK_TREE
  | PRINT_QUEUE
  | COMM_DEVICE
  | IPC
deriving DecidableEq, Repr

/-- The `SHARETYPES` table; `none` models the `undefined` result of a JS
lookup at a key outside the table. -/
def SHARETYPES (n : Nat) : Option ShareType :=
  if n = 0 then some .DISK_TREE
  else if n = 1 then some .PRINT_QUEUE
  else if n = 2 then some .COMM_DEVICE
  else if n = 3 then some .IPC
  else none

/-- One parsed share. The first pass fills `type`/`hidden`/`temporary`;
`name` and `comments` are assigned by the second pass (modelled as `""`
until then; the second pass always overwrites them). `type` is `Option`
because `SHARETYPES[v]` is `undefined` off the table. -/
structure ShareRecord where
  type : Option ShareType
  hidden : Bool
  temporary : Bool
  name : String
  comments : String
deriving DecidableEq, Repr

/-- First pass of the results parser (source lines 234–242): for each of
`count` entries read the 32-bit share-type word at `offset+4` and build the
record; each entry consumes 12 bytes. -/
def firstPass (data : List Nat) (offset : Nat) : Nat → Option (List ShareRecord)
  | 0 => some []
  | n + 1 =>
    match readUInt32LE data (offset + 4) with
    | none => none
    | some w =>
      match firstPass data (offset + 12) n with
      | none => none
      | some rest =>
        some (⟨SHARETYPES (w % 256), decide (w &&& HIDDEN ≠ 0),
               decide (w &&& TEMPORARY ≠ 0), "", ""⟩ :: rest)

/-- Second pass of the results parser (source lines 243–252): for each
entry, read a 4-byte character count at `offset+8`, step past the 12-byte
descriptor, decode `length*2-2` bytes of UTF-16 text, and advance the
cursor by `length*2` bytes (plus 2 when `length` is odd) — first the name,
then the comments. -/
def secondPass (data : List Nat) : List ShareRecord → Nat → Option (List ShareRecord)
  | [], _ => some []
  | f :: fs, offset =>
    match readUInt32LE data (offset + 8) with
    | none => none
    | some len =>
      let o := offset + 12
      let name := ucs2Decode (listSlice data o (o + (len * 2 - 2)))
      let o := o + (if len % 2 ≠ 0 then len * 2 + 2 else len * 2)
      match readUInt32LE data (o + 8) with
      | none => none
      | some clen =>
        let o2 := o + 12
        let comments := ucs2Decode (listSlice data o2 (o2 + (clen * 2 - 2)))
        let o2 := o2 + (if clen % 2 ≠ 0 then clen * 2 + 2 else clen * 2)
        match secondPass data fs o2 with
        | none => none
        | some rest => some (⟨f.type, f.hidden, f.temporary, name, comments⟩ :: rest)

/-- The results parser (source lines 229–252), applied to the buffer the
caller has already sliced past the RPC header: share count at offset 36,
entries from offset 48. -/
def parseShares (data : List Nat) : Option (List ShareRecord) :=
  match readUInt32LE data 36 with
  | none => none
  | some count =>
    match firstPass data 48 count with
    | none => none
    | some firsts => secondPass data firsts (48 + 12 * count)

/-- One string read of the second pass as the specification words it
(spec §4.4 step 3): a 12-byte descriptor whose character count sits at
offset 8 inside it, then exactly `length*2 - 2` bytes of UTF-16 text
(the terminating null pair excluded), then the cursor lands `length*2`
bytes past the text start when `length` is even and `length*2 + 2` bytes
past it when `length` is odd. -/
def specStringRead (data : List Nat) (offset : Nat) : Option (String × Nat) :=
  match readUInt32LE data (offset + 8) with
  | none => none
  | some len =>
    some (ucs2Decode (listSlice data (offset + 12) (offset + 12 + (len * 2 - 2))),
      offset + 12 + (if len % 2 = 1 then len * 2 + 2 else len * 2))

/-- The synthetic two-share procedure-response buffer of the specification
(§8): share 0 is a plain disk tree named "PUBLIC" with empty comments,
share 1 is a hidden disk tree named "ADMIN$" with comments "Remote Admin".
Character counts include the terminating null: 7 for both names, 1 for the
empty comment, 13 for "Remote Admin"; odd counts get a 2-byte pad after the
null pair. -/
def sampleShareBlob : List Nat :=
  List.replicate 36 0 ++ uint32LEBytes 2 ++ List.replicate 8 0
  ++ (List.replicate 4 0 ++ uint32LEBytes 0 ++ List.replicate 4 0)
  ++ (List.replicate 4 0 ++ uint32LEBytes 0x80000000 ++ List.replicate 4 0)
  ++ (List.replicate 8 0 ++ uint32LEBytes 7) ++ ucs2Encode "PUBLIC" ++ List.replicate 4 0
  ++ (List.replicate 8 0 ++ uint32LEBytes 1) ++ List.replicate 4 0
  ++ (List.replicate 8 0 ++ uint32LEBytes 7) ++ ucs2Encode "ADMIN$" ++ List.replicate 4 0
  ++ (List.replicate 8 0 ++ uint32LEBytes 13) ++ ucs2Encode "Remote Admin"
  ++ List.replicate 4 0

/-! ## Inbound data handler (src/index.js lines 136–147) -/

/-- status code of an interim frame (source constant `STATUS_PENDING`). -/
def STATUS_PENDING : Nat := 0x103

/-- What one `'data'` event does with the delivered bytes: `resolve` models
`responsePromise.resolve(d)`, `ignore` models dropping a pending frame
without resolving, `crash` models a Node `RangeError` on a too-short
buffer. -/
inductive HandlerResult where
  | resolve : List Nat → HandlerResult
  | ignore : HandlerResult
  | crash : HandlerResult
deriving DecidableEq, Repr

/-- The socket `'data'` handler (source lines 137–147): read the declared
frame length from the 4-byte big-endian prefix; when the delivery is longer
than declared, drop the first frame and keep the remainder; then resolve
unless the (remaining) frame's status at offset 12 is `STATUS_PENDING`. -/
def socketDataHandler (data : List Nat) : HandlerResult :=
  match readUInt32BE data 0 with
  | none => .crash
  | some packetLength =>
    let d := if packetLength + 4 < data.length then data.drop (packetLength + 4) else data
    match readUInt32LE d 12 with
    | none => .crash
    | some status => if status ≠ STATUS_PENDING then .resolve d else .ignore

/-! ## Connection-string parsing (src/index.js lines 53–77)

The source matches the URL against
`/^smb:\/\/(?:(?:(.*?);)?(.*?)(?::(.*?))?@)?([^:\/]+)(?::(\d+))?/`.
The matcher below is a direct backtracking implementation of that regular
expression with JavaScript semantics: alternatives are tried in priority
order (an optional group first tries to match), lazy stars try the shortest
extension first, and failure backtracks into earlier choice points. It is
written in continuation-passing style so that a failure later in the
pattern correctly re-opens earlier choice points. -/

/-- What `.` matches in a JS regex without the `s` flag: any character that
is not a line terminator. -/
def isDotChar (c : Char) : Bool :=
  c != '\n' && c != '\r' && c != '\u2028' && c != '\u2029'

/-- `[^:/]`, the host character class. -/
def isHostChar (c : Char) : Bool := c != ':' && c != '/'

/-- `\d`. -/
def isDigitChar (c : Char) : Bool := decide ('0' ≤ c ∧ c ≤ '9')

/-- Lazy `(.*?)` followed by the rest of the pattern: try the continuation
on the shortest capture first, then extend the capture one `.`-character at
a time. The continuation receives the capture and the remaining input. -/
def tryLazy {α : Type} (K : List Char → List Char → Option α) : List Char → Option α
  | [] => K [] []
  | c :: r =>
    K [] (c :: r) <|>
      (if isDotChar c then tryLazy (fun cap rest => K (c :: cap) rest) r else none)

/-- `(.*?)(?::(.*?))?@` — username, optional password, then the `@` sign;
the optional password group is greedy (tried before being skipped). The
continuation receives username, optional password, and the input after
`@`. -/
def matchUserPassThen {α : Type} (s : List Char)
    (k : List Char → Option (List Char) → List Char → Option α) : Option α :=
  tryLazy (fun u rest =>
    (match rest with
     | ':' :: r2 =>
       tryLazy (fun p r3 =>
         match r3 with
         | '@' :: r4 => k u (some p) r4
         | _ => none) r2
     | _ => none)
    <|>
    (match rest with
     | '@' :: r4 => k u none r4
     | _ => none)) s

/-- `(?:(?:(.*?);)?(.*?)(?::(.*?))?@)?` — the whole optional authentication
part. The optional domain group is greedy; if every way of matching the
authentication part fails, it is skipped (the continuation `noAuth` is the
rest of the pattern starting at the same position). -/
def matchAuthThen {α : Type} (s : List Char)
    (k : Option (List Char) → List Char → Option (List Char) → List Char → Option α)
    (noAuth : Option α) : Option α :=
  (tryLazy (fun d rest =>
    match rest with
    | ';' :: r2 => matchUserPassThen r2 (k (some d))
    | _ => none) s
  <|> matchUserPassThen s (k none))
  <|> noAuth

/-- `([^:/]+)(?::(\d+))?` — greedy host run (must be nonempty), then an
optional `:` + digits port. Nothing after it can fail (the regex has no end
anchor), so the greedy runs never backtrack. -/
def matchHostPort (s : List Char) : Option (List Char × Option (List Char)) :=
  let h := s.takeWhile isHostChar
  if h.isEmpty then none
  else
    some (h,
      match s.drop h.length with
      | ':' :: r2 =>
        let ds := r2.takeWhile isDigitChar
        if ds.isEmpty then none else some ds
      | _ => none)

/-- The five capture groups of the source regex. `username = none` means
the whole authentication part was absent (group 2 `undefined` in JS);
`username = some []` means it matched the empty string. -/
structure SmbUrlGroups where
  domain : Option (List Char)
  username : Option (List Char)
  password : Option (List Char)
  host : List Char
  port : Option (List Char)
deriving DecidableEq, Repr

/-- The rest of the pattern after a matched authentication part: host and
optional port, assembled into the five capture groups. -/
def smbUrlAuthCont (d : Option (List Char)) (u : List Char) (p : Option (List Char))
    (r : List Char) : Option SmbUrlGroups :=
  (matchHostPort r).map fun hp => ⟨d, some u, p, hp.1, hp.2⟩

/-- The whole pattern with the authentication part skipped: groups 1–3 are
`undefined`. -/
def smbUrlNoAuth (rest : List Char) : Option SmbUrlGroups :=
  (matchHostPort rest).map fun hp => ⟨none, none, none, hp.1, hp.2⟩

/-- The full anchored match of the source regex against the input;
`none` models `matches === null` (the source then throws
`Invalid smb url`). -/
def smbUrlMatch : List Char → Option SmbUrlGroups
  | 's' :: 'm' :: 'b' :: ':' :: '/' :: '/' :: rest =>
    matchAuthThen rest smbUrlAuthCont (smbUrlNoAuth rest)
  | _ => none

/-- The six fields the source derives from its input before connecting. -/
structure SmbOptions where
  host : String
  port : Nat
  username : String
  password : String
  domain : String
  timeout : Nat
deriving DecidableEq, Repr

/-- A configuration object passed directly: each field may be absent
(`undefined`). -/
structure SmbConfig where
  host : Option String
  port : Option Nat
  username : Option String
  password : Option String
  domain : Option String
  timeout : Option Nat
deriving DecidableEq, Repr

/-- JS `v || d` for a possibly-absent string: `undefined` and `""` are
falsy. -/
def jsOrString (v : Option String) (d : String) : String :=
  match v with
  | none => d
  | some s => if s = "" then d else s

/-- JS `v || d` for a possibly-absent number: `undefined` and `0` are
falsy. -/
def jsOrNat (v : Option Nat) (d : Nat) : Nat :=
  match v with
  | none => d
  | some n => if n = 0 then d else n

/-- Numeric value of a digit string. -/
def digitsToNat (ds : List Char) : Nat :=
  ds.foldl (fun acc c => 10 * acc + (c.toNat - 48)) 0

/-- Normalization of a directly passed configuration object (source lines
68–77): apply the `||` defaults, then reject a missing or empty host. -/
def normalizeConfig (c : SmbConfig) : Option SmbOptions :=
  match c.host with
  | none => none
  | some h =>
    if h = "" then none
    else
      some ⟨h, jsOrNat c.port 445, jsOrString c.username "guest",
        jsOrString c.password "", jsOrString c.domain "WORKGROUP",
        jsOrNat c.timeout 5000⟩

/-- The string entry path (source lines 54–77): match the regex, build the
options object from the capture groups, then run the same `||` defaults.
The port capture is a digit string in JS, so it is truthy whenever it is
nonempty — even `"0"` — and `net` then interprets it numerically; its
numeric value is what lands in `port`. A connection string never carries a
timeout, so `timeout` always defaults. -/
def parseOptions (url : String) : Option SmbOptions :=
  match smbUrlMatch url.data with
  | none => none
  | some g =>
    if String.mk g.host = "" then none
    else
      some ⟨String.mk g.host,
        (match g.port with
         | none => 445
         | some ds => if ds.isEmpty then 445 else digitsToNat ds),
        jsOrString (g.username.map String.mk) "guest",
        jsOrString (g.password.map String.mk) "",
        jsOrString (g.domain.map String.mk) "WORKGROUP",
        5000⟩

/-- Modelled from the spec (§6): the connection-string grammar
`scheme://[[domain;]username[:password]@]host[:port]`, instantiated for a
given choice of present fields. This is the specification-side definition
used by the parity claim; the source-side definition is `smbUrlMatch`. -/
def grammarUrl (auth : Option (Option String × String × Option String))
    (host : String) (port : Option String) : String :=
  "smb://"
  ++ (match auth with
      | none => ""
      | some (d, u, p) =>
        (match d with | none => "" | some dv => dv ++ ";")
        ++ u
        ++ (match p with | none => "" | some pv => ":" ++ pv)
        ++ "@")
  ++ host
  ++ (match port with | none => "" | some ds => ":" ++ ds)

/-- The configuration object corresponding to a grammar instance: the same
fields passed directly, the port as its numeric value, no timeout. -/
def grammarConfig (auth : Option (Option String × String × Option String))
    (host : String) (port : Option String) : SmbConfig :=
  ⟨some host,
   port.map (fun ds => digitsToNat ds.data),
   auth.map (fun a => a.2.1),
   auth.bind (fun a => a.2.2),
   auth.bind (fun a => a.1),
   none⟩

/-! ## Message encoding and the session pipeline (src/index.js lines 4–51,
79–134, 162–258) -/

/-- SMB message command opcodes (source lines 7–14). -/
def NEGOTIATE : Nat := 0x00

def SESSION_SETUP : Nat := 0x01

def TREE_CONNECT : Nat := 0x03

def CREATE : Nat := 0x05

def CLOSE : Nat := 0x06

def READ : Nat := 0x08

def WRITE : Nat := 0x09

def IOCTL : Nat := 0x0B

/-- common error codes (source lines 27–34). -/
def COMMON_ERRORS : List (Nat × String) :=
  [(0xc000000d, "STATUS_INVALID_PARAMETER"),
   (0xc0000022, "STATUS_ACCESS_DENIED"),
   (0xc000005e, "STATUS_NO_LOGON_SERVERS"),
   (0xc000006d, "STATUS_LOGON_FAILURE"),
   (0xc0000072, "STATUS_ACCOUNT_DISABLED"),
   (0xc00000bb, "STATUS_NOT_SUPPORTED")]

/-- `COMMON_ERRORS[status]` (`none` = `undefined`; every table entry is a
nonempty string, hence truthy). -/
def lookupCommonError (status : Nat) : Option String :=
  (COMMON_ERRORS.find? (fun p => p.1 == status)).map (fun p => p.2)

def NETBIOS_HEADER : String := "00000000"

def SMB_HEADER : String := "fe534d4240" ++ String.mk (List.replicate 118 '0')

/-- the `requestStructures` table (source lines 40–51), kept as the
verbatim hex strings of the source; `none` = no entry for the opcode. -/
def requestStructures (command : Nat) : Option (List Nat) :=
  if command = NEGOTIATE then
    some (hexDecode "24000200010000000000000000000000000000000000000000000000000000000000000002021002")
  else if command = SESSION_SETUP then
    some (hexDecode "190000010100000000000000580000000000000000000000")
  else if command = TREE_CONNECT then
    some (hexDecode "0900000048000000")
  else if command = CREATE then
    some (hexDecode ("3900000002000000000000000000000000000000000000009f0112000000000007000000010000004000"
      ++ "4000780000000000000000000000"))
  else if command = WRITE then
    some (hexDecode ("310070" ++ String.mk (List.replicate 90 '0')))
  else if command = READ then
    some (hexDecode ("310000000004" ++ String.mk (List.replicate 86 '0')))
  else if command = IOCTL then
    some (hexDecode ("3900000017c0110000000000000000000000000000000000780000000000000000000000000000000000"
      ++ "0000042000000100000000000000"))
  else if command = CLOSE then
    some (hexDecode "1800000000000000000000000000000000000000000000000000000000000000000000000000000000000")
  else none

/-- The mutable session variables of the source (line 79) plus the list of
frames written to the socket, in order. `sessionid` and `fileid` are kept
as the byte lists their hex strings decode to (the source stores hex
strings and always round-trips them through `'hex'` writes); the initial
`sessionid = '0'` is an odd-length hex string from which a `'hex'` write
takes zero bytes, hence `[]`. `alive` is false once `socket.destroy()` has
run. -/
structure St where
  messageid : Nat
  sessionid : List Nat
  treeid : Nat
  fileid : List Nat
  sent : List (List Nat)
  alive : Bool
deriving DecidableEq, Repr

def initialState : St := ⟨0, [], 0, [], [], true⟩

/-- `request` sent a message: record the frame and bump `messageid`
(source lines 81–86). -/
def St.push (st : St) (frame : List Nat) : St :=
  ⟨st.messageid + 1, st.sessionid, st.treeid, st.fileid, st.sent ++ [frame], st.alive⟩

def St.withSession (st : St) (sid : List Nat) : St :=
  ⟨st.messageid, sid, st.treeid, st.fileid, st.sent, st.alive⟩

def St.withTree (st : St) (tid : Nat) : St :=
  ⟨st.messageid, st.sessionid, tid, st.fileid, st.sent, st.alive⟩

def St.withFile (st : St) (fid : List Nat) : St :=
  ⟨st.messageid, st.sessionid, st.treeid, fid, st.sent, st.alive⟩

/-- `socket.destroy()`. -/
def St.kill (st : St) : St :=
  ⟨st.messageid, st.sessionid, st.treeid, st.fileid, st.sent, false⟩

/-- `toString(16)` on a nonnegative number: lowercase hex digits, no
leading zeros, `"0"` for zero. Structural on a fuel argument so that it
evaluates by kernel reduction. -/
def hexDigitChar (n : Nat) : Char :=
  if n < 10 then Char.ofNat (48 + n) else Char.ofNat (87 + n)

def toHexCore : Nat → Nat → List Char
  | 0, _ => []
  | fuel + 1, n =>
    if n < 16 then [hexDigitChar n] else toHexCore fuel (n / 16) ++ [hexDigitChar (n % 16)]

def toHex (n : Nat) : String := String.mk (toHexCore (n + 1) n)

/-- `confirmStatus` (source lines 88–97): on a mismatch, destroy the socket
and produce the error message — the symbolic name from `COMMON_ERRORS` when
the status is in the table, otherwise the raw and expected codes in hex. -/
def confirmStatus (st : St) (status expected : Nat) : St × Option String :=
  if status ≠ expected then
    (st.kill,
      some (match lookupCommonError status with
        | some name => name
        | none => "NTSTATUS 0x" ++ toHex status ++ ". Expected: 0x" ++ toHex expected))
  else (st, none)

/-- The header writes of `createRequest` (source lines 126–133): command
opcode at 16, `messageid` at 28, `treeid` at 40, `sessionid` at 44 (a
`'hex'` write of at most 8 bytes), and finally the big-endian frame length
(total bytes minus the 4-byte prefix) at 0. -/
def headerStamp (b0 : List Nat) (command mid tid : Nat) (sid : List Nat) : List Nat :=
  let b1 := writeBytes b0 16 (uint16LEBytes command)
  let b2 := writeBytes b1 28 (uint32LEBytes mid)
  let b3 := writeBytes b2 40 (uint32LEBytes tid)
  let b4 := writeBytes b3 44 (sid.take 8)
  writeBytes b4 0 (uint32BEBytes (b4.length - 4))

/-- `createRequest` (source lines 99–134): the NETBIOS + SMB header, the
command's body template with its command-specific patches, the payload,
then the header fields via `headerStamp`. `none` models the `TypeError` a
JS lookup miss would cause. -/
def createRequest (st : St) (command : Nat) (params : List Nat) : Option (List Nat) :=
  match requestStructures command with
  | none => none
  | some s0 =>
    let str :=
      if command = SESSION_SETUP then writeBytes s0 14 (uint32LEBytes params.length) ++ params
      else if command = TREE_CONNECT then writeBytes s0 6 (uint16LEBytes params.length) ++ params
      else if command = CREATE then writeBytes s0 46 (uint16LEBytes params.length) ++ params
      else if command = WRITE then
        writeBytes (writeBytes s0 4 (uint32LEBytes params.length)) 16 (st.fileid.take 16) ++ params
      else if command = READ then writeBytes s0 16 (st.fileid.take 16)
      else if command = IOCTL then
        writeBytes (writeBytes s0 28 (uint32LEBytes params.length)) 8 (st.fileid.take 16) ++ params
      else if command = CLOSE then writeBytes s0 8 (st.fileid.take 16)
      else s0
    some (headerStamp (hexDecode (NETBIOS_HEADER ++ SMB_HEADER) ++ str)
      command st.messageid st.treeid st.sessionid)

/-- The RPC bind payload (source lines 192–198): the fixed blob with
`rpcMessageid = 0` written at offset 11. -/
def rpcBindData : List Nat :=
  writeBytes
    (hexDecode ("05000b03100000007400000002000000b810b810000000000200000000000100c84f32"
      ++ "4b7016d30112785a47bf6ee18803000000045d888aeb1cc9119fe808002b1048600200"
      ++ "000001000100c84f324b7016d30112785a47bf6ee188030000002c1cb76c1298404503"
      ++ "0000000000000001000000"))
    11 (uint32LEBytes 0)

/-- The NetShareEnumAll payload (source lines 206–225): the UTF-16
null-terminated (null-padded to even character count) server name
`\\host`, its lengths patched into the fixed parameter block;
`rpcMessageid` is 1 by now (the bind used 0 and post-incremented). -/
def enumRequestData (host : String) : List Nat :=
  let remote0 := "\\\\" ++ host ++ "\x00"
  let server_len := remote0.length
  let remote_name := if server_len % 2 ≠ 0 then remote0 ++ "\x00" else remote0
  let server_bytes_len := if server_len % 2 ≠ 0 then server_len * 2 + 2 else server_len * 2
  let base := hexDecode "050000031000000000000000000000004c00000000000f0000000200000000000000000000000000"
  let base := writeBytes base 8 (uint16LEBytes (server_bytes_len + 72))
  let base := writeBytes base 12 (uint32LEBytes 1)
  let base := writeBytes base 28 (uint32LEBytes server_len)
  let base := writeBytes base 36 (uint32LEBytes server_len)
  base ++ ucs2Encode remote_name
    ++ hexDecode "0100000001000000040002000000000000000000ffffffff0800020000000000"

/-- Result of one enumeration run. Every constructor carries the session
state (in particular the frames sent so far). `hang` models an await whose
response never arrives; `crash` models a thrown `RangeError`/`TypeError`. -/
inductive Outcome where
  | ok : List ShareRecord → St → Outcome
  | statusError : String → St → Outcome
  | hang : St → Outcome
  | crash : St → Outcome
deriving DecidableEq, Repr

def Outcome.state : Outcome → St
  | .ok _ st => st
  | .statusError _ st => st
  | .hang st => st
  | .crash st => st

def Outcome.isStatusError : Outcome → Bool
  | .statusError _ _ => true
  | _ => false

/-- `request(createRequest(command, params))`: build the frame, write it to
the socket, bump `messageid`, then continue (the continuation later awaits
the correlated response). -/
def sendReq (st : St) (command : Nat) (params : List Nat) (k : St → Outcome) : Outcome :=
  match createRequest st command params with
  | none => .crash st
  | some frame => k (st.push frame)

/-- Await the next resolved response. The environment is the sequence of
frames `responsePromise.resolve` receives, in order (the data handler has
already discarded interim pending frames, see `socketDataHandler`). -/
def awaitResp (st : St) (env : List (List Nat)) (k : List Nat → List (List Nat) → Outcome) :
    Outcome :=
  match env with
  | [] => .hang st
  | r :: env' => k r env'

/-- `confirmStatus(result.readUInt32LE(12), expected)` on an awaited
response: a mismatch destroys the socket and aborts with the error. -/
def runCheck (st : St) (result : List Nat) (expected : Nat) (k : St → Outcome) : Outcome :=
  match readUInt32LE result 12 with
  | none => .crash st
  | some status =>
    match confirmStatus st status expected with
    | (st', some msg) => .statusError msg st'
    | (st', none) => k st'

/-- A bare `readUInt32LE` on a response whose value the pipeline consumes
(`treeid` at 40, the result-offset field at 100). -/
def readField (st : St) (r : List Nat) (off : Nat) (k : Nat → Outcome) : Outcome :=
  match readUInt32LE r off with
  | none => .crash st
  | some v => k v

/-- The parse of the sliced IOCTL result (source line 231 and the two-pass
loop): `data = result.slice(result.readUInt32LE(100) + 4)`. -/
def parseStep (st : St) (r8 : List Nat) (v : Nat) (k : List ShareRecord → Outcome) : Outcome :=
  match parseShares (r8.drop (v + 4)) with
  | none => .crash st
  | some shares => k shares

/-- The message pipeline (source lines 162–258): negotiate, the two NTLM
session-setup round-trips, tree connect to `IPC$`, open `srvsvc`, RPC bind
via WRITE, bind ack via READ, NetShareEnumAll via IOCTL, parse the result,
close. The NTLM primitives are external (`ntlm` package): `ntlmType1` is
the type-1 blob for this host/domain and `ntlmType3` maps the server bytes
after offset 76 of the challenge response to the type-3 blob. -/
def enumerateShares (host : String) (ntlmType1 : List Nat)
    (ntlmType3 : List Nat → List Nat) (env : List (List Nat)) : Outcome :=
  sendReq initialState NEGOTIATE [] fun st =>
  awaitResp st env fun r1 env =>
  runCheck st r1 0 fun st =>
  sendReq st SESSION_SETUP ntlmType1 fun st =>
  awaitResp st env fun r2 env =>
  runCheck st r2 0xC0000016 fun st =>
  sendReq (st.withSession (listSlice r2 44 52)) SESSION_SETUP (ntlmType3 (r2.drop 76)) fun st =>
  awaitResp st env fun r3 env =>
  runCheck st r3 0 fun st =>
  sendReq st TREE_CONNECT (ucs2Encode ("\\\\" ++ host ++ "\\IPC$")) fun st =>
  awaitResp st env fun r4 env =>
  runCheck st r4 0 fun st =>
  readField st r4 40 fun tid =>
  sendReq (st.withTree tid) CREATE (ucs2Encode "srvsvc") fun st =>
  awaitResp st env fun r5 env =>
  runCheck st r5 0 fun st =>
  sendReq (st.withFile (listSlice r5 132 148)) WRITE rpcBindData fun st =>
  awaitResp st env fun r6 env =>
  runCheck st r6 0 fun st =>
  sendReq st READ [] fun st =>
  awaitResp st env fun r7 env =>
  runCheck st r7 0 fun st =>
  sendReq st IOCTL (enumRequestData host) fun st =>
  awaitResp st env fun r8 env =>
  runCheck st r8 0 fun st =>
  readField st r8 100 fun v =>
  parseStep st r8 v fun shares =>
  sendReq st CLOSE [] fun st =>
  awaitResp st env fun _r9 _env =>
  Outcome.ok shares st.kill

/-- The expected status of each of the eight validated steps, in pipeline
order: NEGOTIATE, AUTH step 1 (more processing required), AUTH step 2,
TREE_CONNECT, CREATE, WRITE (bind), READ (bind ack), IOCTL (enum). -/
def expectedStatuses : List Nat := [0, 0xC0000016, 0, 0, 0, 0, 0, 0]

/-- The share list of a successful outcome. -/
def Outcome.sharesOf : Outcome → Option (List ShareRecord)
  | .ok shares _ => some shares
  | _ => none

/-- Per-state half of the message-id invariant: the i-th frame written to
the socket carries message id i at header offset 28. -/
def sentOk (st : St) : Prop :=
  ∀ i frame, st.sent.get? i = some frame → readUInt32LE frame 28 = some i

/-- Session-state invariant after n requests: the counter equals n, n
frames have been sent, and each carries its index as message id. -/
def GoodAt (n : Nat) (st : St) : Prop :=
  st.messageid = n ∧ st.sent.length = n ∧ sentOk st

/-- Characters of a domain/username/password field of an unambiguous
grammar instance: matchable by `.` and distinct from the three
delimiters. -/
def authCharOk (c : Char) : Bool :=
  isDotChar c && c != ';' && c != ':' && c != '@'

/-- Characters of a host of an unambiguous grammar instance: allowed by
`[^:/]` and distinct from the authentication delimiters. -/
def hostCharOk (c : Char) : Bool :=
  c != ':' && c != '/' && c != '@' && c != ';'

/-- A one-share procedure-response buffer whose share-type word is 4: its
low byte is off the `SHARETYPES` table, so the first pass stores an
undefined type. Both strings have character count 1 (just the null). -/
def unknownTypeBlob : List Nat :=
  List.replicate 36 0 ++ uint32LEBytes 1 ++ List.replicate 8 0
  ++ (List.replicate 4 0 ++ uint32LEBytes 4 ++ List.replicate 4 0)
  ++ (List.replicate 8 0 ++ uint32LEBytes 1) ++ List.replicate 4 0
  ++ (List.replicate 8 0 ++ uint32LEBytes 1) ++ List.replicate 4 0

/-- A minimal success response: status 0 at offset 12. -/
def okResp : List Nat := List.replicate 16 0

/-- A challenge response: status `STATUS_MORE_PROCESSING_REQUIRED`
(0xC0000016) at offset 12, and enough bytes for the session-id slice. -/
def authChallengeResp : List Nat :=
  List.replicate 12 0 ++ [0x16, 0, 0, 0xC0] ++ List.replicate 64 0

/-- A tree-connect response long enough for the tree-id read at 40. -/
def treeResp : List Nat := List.replicate 44 0

/-- An IOCTL response whose offset-100 length field points just past
itself, followed by the two-share payload. -/
def ioctlOkResp : List Nat :=
  (List.replicate 100 0 ++ [100, 0, 0, 0]) ++ sampleShareBlob

/-- A close response carrying `STATUS_ACCESS_DENIED` (0xC0000022). -/
def closeDeniedResp : List Nat :=
  List.replicate 12 0 ++ [0x22, 0, 0, 0xC0]

/-- A nine-response environment whose first eight statuses are the
expected ones and whose CLOSE response carries a failure status. -/
def closeDeniedEnv : List (List Nat) :=
  [okResp, authChallengeResp, okResp, treeResp, okResp, okResp, okResp,
   ioctlOkResp, closeDeniedResp]

end Smb

namespace Smb

/-- C1: the share-list parser, fed the synthetic two-share buffer of the
specification, returns exactly the two described records in order:
a visible disk tree "PUBLIC" with empty comments, then a hidden disk tree
"ADMIN$" with comments "Remote Admin". -/
theorem parseShares_sample_two_shares :
    parseShares sampleShareBlob =
      some [⟨some .DISK_TREE, false, false, "PUBLIC", ""⟩,
            ⟨some .DISK_TREE, true, false, "ADMIN$", "Remote Admin"⟩] := by
  decide

theorem getByte_append_left (a b : List Nat) (i : Nat) (h : i < a.length) :
    getByte (a ++ b) i = getByte a i := by
  unfold getByte
  rw [List.getD_append _ _ _ _ h]

theorem readUInt32BE_append_left (a b : List Nat) (i : Nat) (h : i + 4 ≤ a.length) :
    readUInt32BE (a ++ b) i = readUInt32BE a i := by
  have h1 : i + 4 ≤ (a ++ b).length := by rw [List.length_append]; omega
  unfold readUInt32BE
  rw [if_pos h1, if_pos h,
    getByte_append_left a b i (by omega), getByte_append_left a b (i + 1) (by omega),
    getByte_append_left a b (i + 2) (by omega), getByte_append_left a b (i + 3) (by omega)]

theorem readUInt32LE_length_le {b : List Nat} {i v : Nat} (h : readUInt32LE b i = some v) :
    i + 4 ≤ b.length := by
  by_contra hc
  unfold readUInt32LE at h
  rw [if_neg hc] at h
  exact Option.noConfusion h

theorem readUInt32BE_length_le {b : List Nat} {i v : Nat} (h : readUInt32BE b i = some v) :
    i + 4 ≤ b.length := by
  by_contra hc
  unfold readUInt32BE at h
  rw [if_neg hc] at h
  exact Option.noConfusion h

/-- C3: when one inbound delivery is a correctly length-prefixed pending
frame immediately followed by a success-status frame, the handler discards
the first frame and resolves the outstanding step with exactly the second
frame. -/
theorem dataHandler_pending_then_success (f1 f2 : List Nat)
    (hlen : readUInt32BE f1 0 = some (f1.length - 4))
    (hpend : readUInt32LE f1 12 = some STATUS_PENDING)
    (hsucc : readUInt32LE f2 12 = some 0) :
    socketDataHandler (f1 ++ f2) = .resolve f2 := by
  have h4 : 0 + 4 ≤ f1.length := readUInt32BE_length_le hlen
  have h16 : 12 + 4 ≤ f2.length := readUInt32LE_length_le hsucc
  have e1 : readUInt32BE (f1 ++ f2) 0 = some (f1.length - 4) := by
    rw [readUInt32BE_append_left f1 f2 0 h4]; exact hlen
  unfold socketDataHandler
  rw [e1]
  have hcond : f1.length - 4 + 4 < (f1 ++ f2).length := by
    rw [List.length_append]; omega
  simp only [if_pos hcond]
  have e2 : f1.length - 4 + 4 = f1.length := by omega
  rw [e2, List.drop_left, hsucc]
  simp [STATUS_PENDING]

/-- Concrete instance of `dataHandler_pending_then_success`: a 16-byte
pending frame followed by a 16-byte success frame. -/
theorem dataHandler_pending_then_success_witness :
    socketDataHandler (([0, 0, 0, 12] ++ List.replicate 8 0 ++ [3, 1, 0, 0])
      ++ List.replicate 16 0) = .resolve (List.replicate 16 0) :=
  dataHandler_pending_then_success _ _ (by decide) (by decide) (by decide)

/-- C2: each iteration of the second pass decodes its two strings exactly
as the specification describes a single string read (`specStringRead`):
a 12-byte descriptor with the character count at offset 8 inside it,
`length*2 - 2` decoded text bytes, and a cursor advance of `length*2`
(even length) or `length*2 + 2` (odd length) past the descriptor. -/
theorem secondPass_string_decode_spec (data : List Nat) (f : ShareRecord)
    (fs : List ShareRecord) (offset : Nat) :
    secondPass data (f :: fs) offset =
      match specStringRead data offset with
      | none => none
      | some (name, o1) =>
        match specStringRead data o1 with
        | none => none
        | some (comments, o2) =>
          match secondPass data fs o2 with
          | none => none
          | some rest => some (⟨f.type, f.hidden, f.temporary, name, comments⟩ :: rest)
      := by
  simp only [secondPass, specStringRead]
  cases h1 : readUInt32LE data (offset + 8) with
  | none => rfl
  | some len =>
    rcases Nat.mod_two_eq_zero_or_one len with h2 | h2
    · simp only [h2]
      norm_num
      cases h3 : readUInt32LE data (offset + 12 + len * 2 + 8) with
      | none => rfl
      | some clen =>
        cases h4 : secondPass data fs
            (offset + 12 + len * 2 + 12 + if clen % 2 = 1 then clen * 2 + 2 else clen * 2) with
        | none => rfl
        | some rest => rfl
    · simp only [h2]
      norm_num
      cases h3 : readUInt32LE data (offset + 12 + (len * 2 + 2) + 8) with
      | none => rfl
      | some clen =>
        cases h4 : secondPass data fs
            (offset + 12 + (len * 2 + 2) + 12 + if clen % 2 = 1 then clen * 2 + 2 else clen * 2) with
        | none => rfl
        | some rest => rfl

/-- C6: on a status mismatch `confirmStatus` destroys the connection and
reports the symbolic name for any of the six tabled codes, and otherwise
the raw status in hex together with the expected code in hex. -/
theorem confirmStatus_mismatch (st : St) (status expected : Nat) (h : status ≠ expected) :
    (confirmStatus st status expected).1.alive = false ∧
    (∀ name, (status, name) ∈ COMMON_ERRORS →
      (confirmStatus st status expected).2 = some name) ∧
    (lookupCommonError status = none →
      (confirmStatus st status expected).2 =
        some ("NTSTATUS 0x" ++ toHex status ++ ". Expected: 0x" ++ toHex expected)) := by
  refine ⟨?_, ?_, ?_⟩
  · simp [confirmStatus, h, St.kill]
  · intro name hmem
    have hlook : lookupCommonError status = some name := by
      have : (status, name) ∈ COMMON_ERRORS := hmem
      fin_cases this <;> rfl
    simp [confirmStatus, h, hlook]
  · intro hlook
    simp [confirmStatus, h, hlook]

theorem firstPass_length {data : List Nat} {off n : Nat} {l : List ShareRecord}
    (h : firstPass data off n = some l) : l.length = n := by
  induction n generalizing off l with
  | zero =>
    simp only [firstPass, Option.some.injEq] at h
    simp [← h]
  | succ n ih =>
    simp only [firstPass] at h
    cases hw : readUInt32LE data (off + 4) with
    | none => rw [hw] at h; exact Option.noConfusion h
    | some w =>
      rw [hw] at h
      cases hr : firstPass data (off + 12) n with
      | none => rw [hr] at h; exact Option.noConfusion h
      | some rest =>
        rw [hr] at h
        simp only [Option.some.injEq] at h
        rw [← h, List.length_cons, ih hr]

theorem firstPass_get? {data : List Nat} {off n : Nat} {l : List ShareRecord}
    (h : firstPass data off n = some l) (i : Nat) (hi : i < n) :
    ∃ w, readUInt32LE data (off + 12 * i + 4) = some w ∧
      l.get? i = some ⟨SHARETYPES (w % 256), decide (w &&& HIDDEN ≠ 0),
        decide (w &&& TEMPORARY ≠ 0), "", ""⟩ := by
  induction n generalizing off l i with
  | zero => omega
  | succ n ih =>
    simp only [firstPass] at h
    cases hw : readUInt32LE data (off + 4) with
    | none => rw [hw] at h; exact Option.noConfusion h
    | some w =>
      rw [hw] at h
      cases hr : firstPass data (off + 12) n with
      | none => rw [hr] at h; exact Option.noConfusion h
      | some rest =>
        rw [hr] at h
        simp only [Option.some.injEq] at h
        subst h
        cases i with
        | zero => exact ⟨w, by simpa using hw, rfl⟩
        | succ i =>
          obtain ⟨w', hw', hget⟩ := ih hr i (by omega)
          refine ⟨w', ?_, by simpa using hget⟩
          have e : off + 12 * (i + 1) + 4 = off + 12 + 12 * i + 4 := by ring
          rw [e]
          exact hw'

theorem secondPass_get?_fields {data : List Nat} {fs l : List ShareRecord} {off : Nat}
    (h : secondPass data fs off = some l) :
    l.length = fs.length ∧ ∀ i r r', l.get? i = some r → fs.get? i = some r' →
      r.type = r'.type ∧ r.hidden = r'.hidden ∧ r.temporary = r'.temporary := by
  induction fs generalizing off l with
  | nil =>
    simp only [secondPass, Option.some.injEq] at h
    subst h
    exact ⟨rfl, fun i r r' hr hr' => by simp at hr⟩
  | cons f fs ih =>
    simp only [secondPass] at h
    split at h
    · exact Option.noConfusion h
    · rename_i len h1
      split at h
      · exact Option.noConfusion h
      · rename_i clen h2
        split at h
        · exact Option.noConfusion h
        · rename_i rest h3
          simp only [Option.some.injEq] at h
          subst h
          obtain ⟨hlen, hfields⟩ := ih h3
          refine ⟨by simp [hlen], fun i r r' hr hr' => ?_⟩
          cases i with
          | zero =>
            simp only [List.get?_cons_zero, Option.some.injEq] at hr hr'
            subst hr; subst hr'
            exact ⟨rfl, rfl, rfl⟩
          | succ i =>
            simp only [List.get?_cons_succ] at hr hr'
            exact hfields i r r' hr hr'

/-- The share-type table yields a value exactly at keys 0..3. -/
theorem SHARETYPES_ne_none (n : Nat) : SHARETYPES n ≠ none ↔ n < 4 := by
  constructor
  · intro h
    by_contra hn
    push_neg at hn
    refine h ?_
    unfold SHARETYPES
    rw [if_neg (by omega), if_neg (by omega), if_neg (by omega), if_neg (by omega)]
  · intro h hnone
    interval_cases n <;> simp [SHARETYPES] at hnone

/-- Common first-pass characterization: every record of a successful parse
takes its `type`, `hidden` and `temporary` fields from the 32-bit type word
of its 12-byte first-pass entry (entry i's word sits at offset
`52 + 12 * i`), via the table lookup on the low byte and the two high bits. -/
theorem parseShares_first_pass_fields (data : List Nat) (shares : List ShareRecord)
    (hp : parseShares data = some shares) (i : Nat) (r : ShareRecord)
    (hr : shares.get? i = some r) :
    ∃ w, readUInt32LE data (52 + 12 * i) = some w ∧
      r.type = SHARETYPES (w % 256) ∧
      r.hidden = decide (w &&& HIDDEN ≠ 0) ∧
      r.temporary = decide (w &&& TEMPORARY ≠ 0) := by
  unfold parseShares at hp
  split at hp
  · exact Option.noConfusion hp
  · rename_i count hc
    split at hp
    · exact Option.noConfusion hp
    · rename_i firsts hf
      obtain ⟨hlen, hfields⟩ := secondPass_get?_fields hp
      have hi : i < shares.length := by
        by_contra hge
        push_neg at hge
        rw [List.get?_eq_none.mpr hge] at hr
        exact Option.noConfusion hr
      have hic : i < count := by
        rw [hlen, firstPass_length hf] at hi
        exact hi
      obtain ⟨w, hw, hget⟩ := firstPass_get? hf i hic
      obtain ⟨ht, hh, htmp⟩ := hfields i r _ hr hget
      refine ⟨w, ?_, by simpa using ht, by simpa using hh, by simpa using htmp⟩
      have e : 52 + 12 * i = 48 + 12 * i + 4 := by ring
      rw [e]
      exact hw

/-- C9 (amended): in every successfully parsed share list, record i's
`type` is exactly the `SHARETYPES` lookup on the low byte of its type word
— one of the four enumerated kinds exactly when that byte is 0..3, and
undefined (`none`) otherwise. -/
theorem parseShares_type_low_byte (data : List Nat) (shares : List ShareRecord)
    (hp : parseShares data = some shares) (i : Nat) (r : ShareRecord)
    (hr : shares.get? i = some r) :
    ∃ w, readUInt32LE data (52 + 12 * i) = some w ∧
      r.type = SHARETYPES (w % 256) ∧ (r.type ≠ none ↔ w % 256 < 4) := by
  obtain ⟨w, hw, ht, _, _⟩ := parseShares_first_pass_fields data shares hp i r hr
  exact ⟨w, hw, ht, by rw [ht]; exact SHARETYPES_ne_none (w % 256)⟩

/-- Concrete instance of `parseShares_type_low_byte` on the two-share
sample buffer. -/
theorem parseShares_type_low_byte_witness :
    ∃ w, readUInt32LE sampleShareBlob (52 + 12 * 0) = some w ∧
      (⟨some .DISK_TREE, false, false, "PUBLIC", ""⟩ : ShareRecord).type
        = SHARETYPES (w % 256) ∧
      ((⟨some .DISK_TREE, false, false, "PUBLIC", ""⟩ : ShareRecord).type ≠ none
        ↔ w % 256 < 4) :=
  parseShares_type_low_byte sampleShareBlob
    [⟨some .DISK_TREE, false, false, "PUBLIC", ""⟩,
     ⟨some .DISK_TREE, true, false, "ADMIN$", "Remote Admin"⟩]
    (by decide) 0 _ (by decide)

/-- C9 counterexample: a share-type word of 4 parses successfully, but the
record's `type` is `undefined` (`none`), not one of the four kinds. -/
theorem parseShares_unknown_type_value :
    parseShares unknownTypeBlob = some [⟨none, false, false, "", ""⟩] := by
  decide

/-- C10: in every successfully parsed share list, record i's `hidden` and
`temporary` flags are exactly the 0x80000000 and 0x40000000 bit tests on
its first-pass type word — a function of that word alone, independent of
any name or comment bytes. -/
theorem parseShares_flags_from_type_word (data : List Nat) (shares : List ShareRecord)
    (hp : parseShares data = some shares) (i : Nat) (r : ShareRecord)
    (hr : shares.get? i = some r) :
    ∃ w, readUInt32LE data (52 + 12 * i) = some w ∧
      r.hidden = decide (w &&& HIDDEN ≠ 0) ∧
      r.temporary = decide (w &&& TEMPORARY ≠ 0) := by
  obtain ⟨w, hw, _, hh, ht⟩ := parseShares_first_pass_fields data shares hp i r hr
  exact ⟨w, hw, hh, ht⟩

/-- Concrete instance of `parseShares_flags_from_type_word`: the hidden
`ADMIN$` record of the sample buffer. -/
theorem parseShares_flags_from_type_word_witness :
    ∃ w, readUInt32LE sampleShareBlob (52 + 12 * 1) = some w ∧
      (⟨some .DISK_TREE, true, false, "ADMIN$", "Remote Admin"⟩ : ShareRecord).hidden
        = decide (w &&& HIDDEN ≠ 0) ∧
      (⟨some .DISK_TREE, true, false, "ADMIN$", "Remote Admin"⟩ : ShareRecord).temporary
        = decide (w &&& TEMPORARY ≠ 0) :=
  parseShares_flags_from_type_word sampleShareBlob
    [⟨some .DISK_TREE, false, false, "PUBLIC", ""⟩,
     ⟨some .DISK_TREE, true, false, "ADMIN$", "Remote Admin"⟩]
    (by decide) 1 _ (by decide)

theorem length_writeBytes (b : List Nat) (i : Nat) (bs : List Nat)
    (hin : i + bs.length ≤ b.length) :
    (writeBytes b i bs).length = b.length := by
  unfold writeBytes
  rw [List.length_append, List.length_append, List.length_take, List.length_drop]
  omega

theorem writeBytes_getElem? (b : List Nat) (i : Nat) (bs : List Nat)
    (hin : i + bs.length ≤ b.length) (j : Nat) :
    (writeBytes b i bs)[j]? =
      if i ≤ j ∧ j < i + bs.length then bs[j - i]? else b[j]? := by
  unfold writeBytes
  have hti : (b.take i).length = i := by rw [List.length_take]; omega
  rw [List.append_assoc]
  rcases Nat.lt_or_ge j i with hj | hj
  · rw [if_neg (by omega), List.getElem?_append_left (by omega)]
    exact List.getElem?_take_of_lt hj
  · rcases Nat.lt_or_ge j (i + bs.length) with hj2 | hj2
    · rw [if_pos ⟨hj, hj2⟩, List.getElem?_append_right (by omega), hti,
        List.getElem?_append_left (by omega)]
    · rw [if_neg (by omega), List.getElem?_append_right (by omega), hti,
        List.getElem?_append_right (by omega : bs.length ≤ j - i), List.getElem?_drop]
      congr 1
      omega

theorem getByte_writeBytes (b : List Nat) (i : Nat) (bs : List Nat)
    (hin : i + bs.length ≤ b.length) (j : Nat) :
    getByte (writeBytes b i bs) j =
      if i ≤ j ∧ j < i + bs.length then bs.getD (j - i) 0 % 256 else getByte b j := by
  unfold getByte
  rw [List.getD_eq_getElem?_getD, List.getD_eq_getElem?_getD,
    writeBytes_getElem? b i bs hin j]
  rcases Nat.lt_or_ge j i with hj | hj
  · rw [if_neg (show ¬(i ≤ j ∧ j < i + bs.length) by omega),
      if_neg (show ¬(i ≤ j ∧ j < i + bs.length) by omega), List.getD_eq_getElem?_getD]
  · rcases Nat.lt_or_ge j (i + bs.length) with hj2 | hj2
    · rw [if_pos ⟨hj, hj2⟩, if_pos ⟨hj, hj2⟩]
    · rw [if_neg (show ¬(i ≤ j ∧ j < i + bs.length) by omega),
        if_neg (show ¬(i ≤ j ∧ j < i + bs.length) by omega), List.getD_eq_getElem?_getD]

theorem getByte_writeBytes_disjoint (b : List Nat) (i : Nat) (bs : List Nat) (j : Nat)
    (hin : i + bs.length ≤ b.length) (hdis : j < i ∨ i + bs.length ≤ j) :
    getByte (writeBytes b i bs) j = getByte b j := by
  rw [getByte_writeBytes b i bs hin j,
    if_neg (show ¬(i ≤ j ∧ j < i + bs.length) by omega)]

theorem getByte_writeBytes_in (b : List Nat) (i : Nat) (bs : List Nat) (j : Nat)
    (hin : i + bs.length ≤ b.length) (h1 : i ≤ j) (h2 : j < i + bs.length) :
    getByte (writeBytes b i bs) j = bs.getD (j - i) 0 % 256 := by
  rw [getByte_writeBytes b i bs hin j, if_pos ⟨h1, h2⟩]

theorem readUInt32LE_writeBytes_disjoint (b : List Nat) (i : Nat) (bs : List Nat)
    (j : Nat) (hin : i + bs.length ≤ b.length) (hdis : j + 4 ≤ i ∨ i + bs.length ≤ j) :
    readUInt32LE (writeBytes b i bs) j = readUInt32LE b j := by
  unfold readUInt32LE
  rw [length_writeBytes b i bs hin,
    getByte_writeBytes_disjoint b i bs j hin (by omega),
    getByte_writeBytes_disjoint b i bs (j + 1) hin (by omega),
    getByte_writeBytes_disjoint b i bs (j + 2) hin (by omega),
    getByte_writeBytes_disjoint b i bs (j + 3) hin (by omega)]

theorem readUInt16LE_writeBytes_disjoint (b : List Nat) (i : Nat) (bs : List Nat)
    (j : Nat) (hin : i + bs.length ≤ b.length) (hdis : j + 2 ≤ i ∨ i + bs.length ≤ j) :
    readUInt16LE (writeBytes b i bs) j = readUInt16LE b j := by
  unfold readUInt16LE
  rw [length_writeBytes b i bs hin,
    getByte_writeBytes_disjoint b i bs j hin (by omega),
    getByte_writeBytes_disjoint b i bs (j + 1) hin (by omega)]

theorem readUInt32LE_writeBytes_at (b : List Nat) (i v : Nat) (hin : i + 4 ≤ b.length) :
    readUInt32LE (writeBytes b i (uint32LEBytes v)) i = some (v % 4294967296) := by
  have hl : (uint32LEBytes v).length = 4 := rfl
  have hin' : i + (uint32LEBytes v).length ≤ b.length := by rw [hl]; omega
  unfold readUInt32LE
  rw [length_writeBytes b i _ hin', if_pos hin,
    getByte_writeBytes_in b i _ i hin' (by omega) (by rw [hl]; omega),
    getByte_writeBytes_in b i _ (i + 1) hin' (by omega) (by rw [hl]; omega),
    getByte_writeBytes_in b i _ (i + 2) hin' (by omega) (by rw [hl]; omega),
    getByte_writeBytes_in b i _ (i + 3) hin' (by omega) (by rw [hl]; omega)]
  have e0 : i - i = 0 := by omega
  have e1 : i + 1 - i = 1 := by omega
  have e2 : i + 2 - i = 2 := by omega
  have e3 : i + 3 - i = 3 := by omega
  rw [e0, e1, e2, e3]
  simp only [uint32LEBytes, List.getD_cons_zero, List.getD_cons_succ]
  congr 1
  omega

theorem readUInt16LE_writeBytes_at (b : List Nat) (i v : Nat) (hin : i + 2 ≤ b.length) :
    readUInt16LE (writeBytes b i (uint16LEBytes v)) i = some (v % 65536) := by
  have hl : (uint16LEBytes v).length = 2 := rfl
  have hin' : i + (uint16LEBytes v).length ≤ b.length := by rw [hl]; omega
  unfold readUInt16LE
  rw [length_writeBytes b i _ hin', if_pos hin,
    getByte_writeBytes_in b i _ i hin' (by omega) (by rw [hl]; omega),
    getByte_writeBytes_in b i _ (i + 1) hin' (by omega) (by rw [hl]; omega)]
  have e0 : i - i = 0 := by omega
  have e1 : i + 1 - i = 1 := by omega
  rw [e0, e1]
  simp only [uint16LEBytes, List.getD_cons_zero, List.getD_cons_succ]
  congr 1
  omega

theorem listSlice_writeBytes_at (b : List Nat) (i : Nat) (bs : List Nat)
    (hin : i + bs.length ≤ b.length) :
    listSlice (writeBytes b i bs) i (i + bs.length) = bs := by
  apply List.ext_getElem?
  intro n
  unfold listSlice
  rw [List.getElem?_drop]
  rcases Nat.lt_or_ge n bs.length with hn | hn
  · rw [List.getElem?_take_of_lt (by omega), writeBytes_getElem? b i bs hin (i + n),
      if_pos (by omega)]
    congr 1
    omega
  · rw [List.getElem?_eq_none, List.getElem?_eq_none hn]
    rw [List.length_take]
    omega

theorem listSlice_writeBytes_disjoint (b : List Nat) (i : Nat) (bs : List Nat)
    (start stop : Nat) (hin : i + bs.length ≤ b.length) (h : i + bs.length ≤ start) :
    listSlice (writeBytes b i bs) start stop = listSlice b start stop := by
  apply List.ext_getElem?
  intro n
  unfold listSlice
  rw [List.getElem?_drop, List.getElem?_drop]
  rcases Nat.lt_or_ge (start + n) stop with hn | hn
  · rw [List.getElem?_take_of_lt hn, List.getElem?_take_of_lt hn,
      writeBytes_getElem? b i bs hin, if_neg (by omega)]
  · rw [List.getElem?_eq_none, List.getElem?_eq_none]
    · rw [List.length_take]; omega
    · rw [List.length_take]; omega

/-- The 68-byte NETBIOS + SMB fixed header. -/
theorem smbHeader_length : (hexDecode (NETBIOS_HEADER ++ SMB_HEADER)).length = 68 := by
  decide

/-- Reading the stamped header fields back: the four header writes land at
pairwise disjoint offsets inside the 68-byte fixed header, and the final
length write at 0 does not overlap any of them. -/
theorem headerStamp_reads (b0 : List Nat) (cmd mid tid : Nat) (sid : List Nat)
    (hlen : 68 ≤ b0.length) (hsid : sid.length ≤ 8) :
    readUInt16LE (headerStamp b0 cmd mid tid sid) 16 = some (cmd % 65536) ∧
    readUInt32LE (headerStamp b0 cmd mid tid sid) 28 = some (mid % 4294967296) ∧
    readUInt32LE (headerStamp b0 cmd mid tid sid) 40 = some (tid % 4294967296) ∧
    listSlice (headerStamp b0 cmd mid tid sid) 44 (44 + sid.length) = sid := by
  have htake : sid.take 8 = sid := List.take_of_length_le hsid
  unfold headerStamp
  set b1 := writeBytes b0 16 (uint16LEBytes cmd) with hb1
  have h16 : 16 + (uint16LEBytes cmd).length ≤ b0.length := by
    simp only [uint16LEBytes, List.length_cons, List.length_nil]
    omega
  have hlen1 : b1.length = b0.length := length_writeBytes _ _ _ h16
  set b2 := writeBytes b1 28 (uint32LEBytes mid) with hb2
  have h28 : 28 + (uint32LEBytes mid).length ≤ b1.length := by
    simp only [uint32LEBytes, List.length_cons, List.length_nil]
    omega
  have hlen2 : b2.length = b1.length := length_writeBytes _ _ _ h28
  set b3 := writeBytes b2 40 (uint32LEBytes tid) with hb3
  have h40 : 40 + (uint32LEBytes tid).length ≤ b2.length := by
    simp only [uint32LEBytes, List.length_cons, List.length_nil]
    omega
  have hlen3 : b3.length = b2.length := length_writeBytes _ _ _ h40
  set b4 := writeBytes b3 44 (sid.take 8) with hb4
  have h44 : 44 + (sid.take 8).length ≤ b3.length := by
    rw [htake]
    omega
  have hlen4 : b4.length = b3.length := length_writeBytes _ _ _ h44
  have h0 : 0 + (uint32BEBytes (b4.length - 4)).length ≤ b4.length := by
    simp only [uint32BEBytes, List.length_cons, List.length_nil]
    omega
  refine ⟨?_, ?_, ?_, ?_⟩
  · rw [readUInt16LE_writeBytes_disjoint _ _ _ _ h0 (by right; simp [uint32BEBytes]),
      readUInt16LE_writeBytes_disjoint _ _ _ _ h44 (by left; omega),
      readUInt16LE_writeBytes_disjoint _ _ _ _ h40 (by left; omega),
      readUInt16LE_writeBytes_disjoint _ _ _ _ h28 (by left; omega),
      readUInt16LE_writeBytes_at _ _ _ (by omega)]
  · rw [readUInt32LE_writeBytes_disjoint _ _ _ _ h0 (by right; simp [uint32BEBytes]),
      readUInt32LE_writeBytes_disjoint _ _ _ _ h44 (by left; omega),
      readUInt32LE_writeBytes_disjoint _ _ _ _ h40 (by left; omega),
      readUInt32LE_writeBytes_at _ _ _ (by omega)]
  · rw [readUInt32LE_writeBytes_disjoint _ _ _ _ h0 (by right; simp [uint32BEBytes]),
      readUInt32LE_writeBytes_disjoint _ _ _ _ h44 (by left; omega),
      readUInt32LE_writeBytes_at _ _ _ (by omega)]
  · rw [listSlice_writeBytes_disjoint _ _ _ _ _ h0 (by simp [uint32BEBytes])]
    have e : 44 + sid.length = 44 + (sid.take 8).length := by rw [htake]
    rw [e, listSlice_writeBytes_at _ _ _ h44, htake]

/-- The message id lands at offset 28 for any session id (the `'hex'`
write at 44 stores at most 8 bytes, so it never reaches offset 28). -/
theorem headerStamp_mid (b0 : List Nat) (cmd mid tid : Nat) (sid : List Nat)
    (hlen : 68 ≤ b0.length) :
    readUInt32LE (headerStamp b0 cmd mid tid sid) 28 = some (mid % 4294967296) := by
  have hmin : (sid.take 8).length ≤ 8 := by
    rw [List.length_take]
    exact Nat.min_le_left 8 sid.length
  unfold headerStamp
  set b1 := writeBytes b0 16 (uint16LEBytes cmd) with hb1
  have h16 : 16 + (uint16LEBytes cmd).length ≤ b0.length := by
    simp only [uint16LEBytes, List.length_cons, List.length_nil]
    omega
  have hlen1 : b1.length = b0.length := length_writeBytes _ _ _ h16
  set b2 := writeBytes b1 28 (uint32LEBytes mid) with hb2
  have h28 : 28 + (uint32LEBytes mid).length ≤ b1.length := by
    simp only [uint32LEBytes, List.length_cons, List.length_nil]
    omega
  have hlen2 : b2.length = b1.length := length_writeBytes _ _ _ h28
  set b3 := writeBytes b2 40 (uint32LEBytes tid) with hb3
  have h40 : 40 + (uint32LEBytes tid).length ≤ b2.length := by
    simp only [uint32LEBytes, List.length_cons, List.length_nil]
    omega
  have hlen3 : b3.length = b2.length := length_writeBytes _ _ _ h40
  set b4 := writeBytes b3 44 (sid.take 8) with hb4
  have h44 : 44 + (sid.take 8).length ≤ b3.length := by omega
  have hlen4 : b4.length = b3.length := length_writeBytes _ _ _ h44
  have h0 : 0 + (uint32BEBytes (b4.length - 4)).length ≤ b4.length := by
    simp only [uint32BEBytes, List.length_cons, List.length_nil]
    omega
  rw [readUInt32LE_writeBytes_disjoint _ _ _ _ h0 (by right; simp [uint32BEBytes]),
    readUInt32LE_writeBytes_disjoint _ _ _ _ h44 (by left; omega),
    readUInt32LE_writeBytes_disjoint _ _ _ _ h40 (by left; omega),
    readUInt32LE_writeBytes_at _ _ _ (by omega)]

/-- Any frame produced by `createRequest` carries the session's current
`messageid` (mod 2^32) at header offset 28. -/
theorem createRequest_messageid {st : St} {command : Nat} {params frame : List Nat}
    (h : createRequest st command params = some frame) :
    readUInt32LE frame 28 = some (st.messageid % 4294967296) := by
  unfold createRequest at h
  split at h
  · exact Option.noConfusion h
  · rename_i s0 hs0
    simp only [Option.some.injEq] at h
    subst h
    have hlen : 68 ≤ (hexDecode (NETBIOS_HEADER ++ SMB_HEADER) ++
        (if command = SESSION_SETUP then writeBytes s0 14 (uint32LEBytes params.length) ++ params
        else if command = TREE_CONNECT then writeBytes s0 6 (uint16LEBytes params.length) ++ params
        else if command = CREATE then writeBytes s0 46 (uint16LEBytes params.length) ++ params
        else if command = WRITE then
          writeBytes (writeBytes s0 4 (uint32LEBytes params.length)) 16 (st.fileid.take 16) ++ params
        else if command = READ then writeBytes s0 16 (st.fileid.take 16)
        else if command = IOCTL then
          writeBytes (writeBytes s0 28 (uint32LEBytes params.length)) 8 (st.fileid.take 16) ++ params
        else if command = CLOSE then writeBytes s0 8 (st.fileid.take 16)
        else s0)).length := by
      rw [List.length_append, smbHeader_length]
      omega
    exact headerStamp_mid _ command st.messageid st.treeid st.sessionid hlen

/-- C8: for every known command opcode, message id, tree id and 8-byte
session id, encoding with `createRequest` and reading the header fields
back at their fixed offsets (command at 16, message id at 28, tree id
at 40, session id at 44..52) returns the inputs unchanged. -/
theorem createRequest_header_roundtrip (st : St) (command : Nat) (params : List Nat)
    (hcmd : command ∈ [NEGOTIATE, SESSION_SETUP, TREE_CONNECT, CREATE, CLOSE, READ, WRITE, IOCTL])
    (hm : st.messageid < 4294967296) (ht : st.treeid < 4294967296)
    (hs : st.sessionid.length = 8) :
    ∃ frame, createRequest st command params = some frame ∧
      readUInt16LE frame 16 = some command ∧
      readUInt32LE frame 28 = some st.messageid ∧
      readUInt32LE frame 40 = some st.treeid ∧
      listSlice frame 44 52 = st.sessionid := by
  have hc16 : command < 65536 := by fin_cases hcmd <;> decide
  have hsome : ∃ s0, requestStructures command = some s0 := by
    fin_cases hcmd <;> exact ⟨_, rfl⟩
  obtain ⟨s0, hs0⟩ := hsome
  unfold createRequest
  rw [hs0]
  refine ⟨_, rfl, ?_⟩
  have hlen : 68 ≤ (hexDecode (NETBIOS_HEADER ++ SMB_HEADER) ++
      (if command = SESSION_SETUP then writeBytes s0 14 (uint32LEBytes params.length) ++ params
      else if command = TREE_CONNECT then writeBytes s0 6 (uint16LEBytes params.length) ++ params
      else if command = CREATE then writeBytes s0 46 (uint16LEBytes params.length) ++ params
      else if command = WRITE then
        writeBytes (writeBytes s0 4 (uint32LEBytes params.length)) 16 (st.fileid.take 16) ++ params
      else if command = READ then writeBytes s0 16 (st.fileid.take 16)
      else if command = IOCTL then
        writeBytes (writeBytes s0 28 (uint32LEBytes params.length)) 8 (st.fileid.take 16) ++ params
      else if command = CLOSE then writeBytes s0 8 (st.fileid.take 16)
      else s0)).length := by
    rw [List.length_append, smbHeader_length]
    omega
  obtain ⟨h16, h28, h40, h44⟩ := headerStamp_reads _ command st.messageid st.treeid
    st.sessionid hlen (le_of_eq hs)
  refine ⟨?_, ?_, ?_, ?_⟩
  · rw [h16, Nat.mod_eq_of_lt hc16]
  · rw [h28, Nat.mod_eq_of_lt hm]
  · rw [h40, Nat.mod_eq_of_lt ht]
  · have e : (52 : Nat) = 44 + st.sessionid.length := by omega
    rw [e]
    exact h44

/-- Concrete instance of `createRequest_header_roundtrip`: a CLOSE frame
with nonzero ids. -/
theorem createRequest_header_roundtrip_witness :
    ∃ frame, createRequest ⟨7, [1, 2, 3, 4, 5, 6, 7, 8], 9, [], [], true⟩ CLOSE []
        = some frame ∧
      readUInt16LE frame 16 = some CLOSE ∧
      readUInt32LE frame 28 = some 7 ∧
      readUInt32LE frame 40 = some 9 ∧
      listSlice frame 44 52 = [1, 2, 3, 4, 5, 6, 7, 8] :=
  createRequest_header_roundtrip ⟨7, [1, 2, 3, 4, 5, 6, 7, 8], 9, [], [], true⟩ CLOSE []
    (by decide) (by decide) (by decide) (by decide)

theorem goodAt_initial : GoodAt 0 initialState := by
  refine ⟨rfl, rfl, ?_⟩
  intro i f h
  rw [show initialState.sent = [] from rfl] at h
  simp at h

theorem awaitResp_sentOk {st : St} {env : List (List Nat)}
    {k : List Nat → List (List Nat) → Outcome} (h : sentOk st)
    (hk : ∀ r env', sentOk ((k r env').state)) :
    sentOk ((awaitResp st env k).state) := by
  cases env with
  | nil => exact h
  | cons r env' => exact hk r env'

theorem confirmStatus_fst (st : St) (status expected : Nat) :
    (confirmStatus st status expected).1.messageid = st.messageid ∧
    (confirmStatus st status expected).1.sent = st.sent := by
  unfold confirmStatus
  split <;> exact ⟨rfl, rfl⟩

theorem runCheck_sentOk {n : Nat} {st : St} {r : List Nat} {e : Nat} {k : St → Outcome}
    (h : GoodAt n st) (hk : ∀ st', GoodAt n st' → sentOk ((k st').state)) :
    sentOk ((runCheck st r e k).state) := by
  unfold runCheck
  cases readUInt32LE r 12 with
  | none => exact h.2.2
  | some status =>
    show sentOk ((match confirmStatus st status e with
      | (st', some msg) => Outcome.statusError msg st'
      | (st', none) => k st').state)
    rcases hcs : confirmStatus st status e with ⟨st', msg⟩
    have hst' : GoodAt n st' := by
      obtain ⟨h1, h2⟩ := confirmStatus_fst st status e
      rw [hcs] at h1 h2
      exact ⟨h1.trans h.1, h2 ▸ h.2.1, fun i f hf => h.2.2 i f (h2 ▸ hf)⟩
    cases msg with
    | none => exact hk st' hst'
    | some m => exact hst'.2.2

theorem readField_sentOk {st : St} {r : List Nat} {off : Nat} {k : Nat → Outcome}
    (h : sentOk st) (hk : ∀ v, sentOk ((k v).state)) :
    sentOk ((readField st r off k).state) := by
  unfold readField
  cases readUInt32LE r off with
  | none => exact h
  | some v => exact hk v

theorem parseStep_sentOk {st : St} {r8 : List Nat} {v : Nat}
    {k : List ShareRecord → Outcome} (h : sentOk st)
    (hk : ∀ shares, sentOk ((k shares).state)) :
    sentOk ((parseStep st r8 v k).state) := by
  unfold parseStep
  cases parseShares (r8.drop (v + 4)) with
  | none => exact h
  | some shares => exact hk shares

theorem sendReq_sentOk {n : Nat} {st : St} {c : Nat} {p : List Nat} {k : St → Outcome}
    (h : GoodAt n st) (hn : n < 4294967296)
    (hk : ∀ st', GoodAt (n + 1) st' → sentOk ((k st').state)) :
    sentOk ((sendReq st c p k).state) := by
  unfold sendReq
  cases hcr : createRequest st c p with
  | none => exact h.2.2
  | some frame =>
    apply hk
    obtain ⟨hmid, hlen, hok⟩ := h
    refine ⟨by show st.messageid + 1 = n + 1; omega, ?_, ?_⟩
    · show (st.sent ++ [frame]).length = n + 1
      rw [List.length_append, hlen]
      rfl
    · intro i f hget
      have hget' : (st.sent ++ [frame]).get? i = some f := hget
      rcases Nat.lt_or_ge i st.sent.length with hi | hi
      · rw [List.get?_append hi] at hget'
        exact hok i f hget'
      · rw [List.get?_append_right hi] at hget'
        cases hd : i - st.sent.length with
        | zero =>
          rw [hd] at hget'
          simp only [List.get?_cons_zero, Option.some.injEq] at hget'
          subst hget'
          have hin : i = n := by omega
          subst hin
          rw [createRequest_messageid hcr, hmid, Nat.mod_eq_of_lt hn]
        | succ m =>
          rw [hd] at hget'
          simp at hget'

/-- C7: in every run of the pipeline, the i-th request frame written to the
socket (counting from 0) carries message id i at header offset 28 — the
counter starts at 0 and is bumped exactly once per request. -/
theorem enumerateShares_messageids (host : String) (t1 : List Nat)
    (t3 : List Nat → List Nat) (env : List (List Nat)) (i : Nat) (frame : List Nat)
    (h : ((enumerateShares host t1 t3 env).state.sent).get? i = some frame) :
    readUInt32LE frame 28 = some i := by
  suffices hq : sentOk ((enumerateShares host t1 t3 env).state) from hq i frame h
  unfold enumerateShares
  refine sendReq_sentOk goodAt_initial (by norm_num) fun stA hA => ?_
  refine awaitResp_sentOk hA.2.2 fun r1 env1 => ?_
  refine runCheck_sentOk hA fun stB hB => ?_
  refine sendReq_sentOk hB (by norm_num) fun stC hC => ?_
  refine awaitResp_sentOk hC.2.2 fun r2 env2 => ?_
  refine runCheck_sentOk hC fun stD hD => ?_
  refine sendReq_sentOk hD (by norm_num) fun stE hE => ?_
  refine awaitResp_sentOk hE.2.2 fun r3 env3 => ?_
  refine runCheck_sentOk hE fun stF hF => ?_
  refine sendReq_sentOk hF (by norm_num) fun stG hG => ?_
  refine awaitResp_sentOk hG.2.2 fun r4 env4 => ?_
  refine runCheck_sentOk hG fun stH hH => ?_
  refine readField_sentOk hH.2.2 fun tid => ?_
  refine sendReq_sentOk hH (by norm_num) fun stI hI => ?_
  refine awaitResp_sentOk hI.2.2 fun r5 env5 => ?_
  refine runCheck_sentOk hI fun stJ hJ => ?_
  refine sendReq_sentOk hJ (by norm_num) fun stK hK => ?_
  refine awaitResp_sentOk hK.2.2 fun r6 env6 => ?_
  refine runCheck_sentOk hK fun stL hL => ?_
  refine sendReq_sentOk hL (by norm_num) fun stM hM => ?_
  refine awaitResp_sentOk hM.2.2 fun r7 env7 => ?_
  refine runCheck_sentOk hM fun stN hN => ?_
  refine sendReq_sentOk hN (by norm_num) fun stO hO => ?_
  refine awaitResp_sentOk hO.2.2 fun r8 env8 => ?_
  refine runCheck_sentOk hO fun stP hP => ?_
  refine readField_sentOk hP.2.2 fun v => ?_
  refine parseStep_sentOk hP.2.2 fun shares => ?_
  refine sendReq_sentOk hP (by norm_num) fun stQ hQ => ?_
  refine awaitResp_sentOk hQ.2.2 fun r9 env9 => ?_
  exact hQ.2.2

/-- Concrete instance of `enumerateShares_messageids`: with no responses,
the run hangs after sending the NEGOTIATE request, whose message id is 0. -/
theorem enumerateShares_messageids_witness :
    readUInt32LE (((enumerateShares "h" [] (fun _ => []) []).state.sent).getD 0 []) 28
      = some 0 :=
  enumerateShares_messageids "h" [] (fun _ => []) [] 0
    (((enumerateShares "h" [] (fun _ => []) []).state.sent).getD 0 []) (by decide)

theorem awaitResp_cons {st : St} {r : List Nat} {env' : List (List Nat)}
    {k : List Nat → List (List Nat) → Outcome} :
    awaitResp st (r :: env') k = k r env' := rfl

theorem sendReq_some {st : St} {p : List Nat} {k : St → Outcome} (c : Nat)
    (h : (requestStructures c).isSome = true) :
    sendReq st c p k = k (st.push ((createRequest st c p).getD [])) := by
  unfold sendReq
  cases hcr : createRequest st c p with
  | none =>
    exfalso
    unfold createRequest at hcr
    cases hs : requestStructures c with
    | none => rw [hs] at h; simp at h
    | some s0 => rw [hs] at hcr; exact Option.noConfusion hcr
  | some f => rfl

theorem runCheck_pass {st : St} {r : List Nat} {e : Nat} {k : St → Outcome}
    (h : readUInt32LE r 12 = some e) : runCheck st r e k = k st := by
  unfold runCheck
  rw [h]
  show (match confirmStatus st e e with
    | (st', some msg) => Outcome.statusError msg st'
    | (st', none) => k st') = k st
  have hcs : confirmStatus st e e = (st, none) := by
    unfold confirmStatus
    rw [if_neg (show ¬e ≠ e from fun hh => hh rfl)]
  rw [hcs]

theorem runCheck_fail {st : St} {r : List Nat} {e s : Nat} {k : St → Outcome}
    (h : readUInt32LE r 12 = some s) (hne : s ≠ e) :
    (runCheck st r e k).isStatusError = true := by
  unfold runCheck
  rw [h]
  show (match confirmStatus st s e with
    | (st', some msg) => Outcome.statusError msg st'
    | (st', none) => k st').isStatusError = true
  unfold confirmStatus
  rw [if_pos hne]
  rfl

theorem readField_eq {st : St} {r : List Nat} {off : Nat} {k : Nat → Outcome} {v : Nat}
    (h : readUInt32LE r off = some v) : readField st r off k = k v := by
  unfold readField
  rw [h]

theorem parseStep_eq {st : St} {r8 : List Nat} {v : Nat} {k : List ShareRecord → Outcome}
    {shares : List ShareRecord} (h : parseShares (r8.drop (v + 4)) = some shares) :
    parseStep st r8 v k = k shares := by
  unfold parseStep
  rw [h]

/-- C5 (amended): every step except CLOSE validates its response status —
AUTH step 1 against the "more processing required" status 0xC0000016 and
the other seven (NEGOTIATE, AUTH step 2, TREE_CONNECT, CREATE, WRITE, READ,
IOCTL) against success — and any mismatch at those eight steps aborts the
whole operation; the CLOSE response's status is not validated: once the
eight checks pass and the result parses, the operation succeeds whatever
the ninth response contains. -/
theorem enumerateShares_status_checks :
    (∀ (host : String) (t1 : List Nat) (t3 : List Nat → List Nat)
      (r1 r2 r3 r4 r5 r6 r7 r8 : List Nat) (rest : List (List Nat)) (k s : Nat),
      k < 8 →
      (∀ j, j < k → readUInt32LE ([r1, r2, r3, r4, r5, r6, r7, r8].getD j []) 12
        = some (expectedStatuses.getD j 0)) →
      readUInt32LE ([r1, r2, r3, r4, r5, r6, r7, r8].getD k []) 12 = some s →
      s ≠ expectedStatuses.getD k 0 →
      (4 ≤ k → ∃ tid, readUInt32LE r4 40 = some tid) →
      (enumerateShares host t1 t3
        (r1 :: r2 :: r3 :: r4 :: r5 :: r6 :: r7 :: r8 :: rest)).isStatusError = true) ∧
    (∀ (host : String) (t1 : List Nat) (t3 : List Nat → List Nat)
      (r1 r2 r3 r4 r5 r6 r7 r8 r9 : List Nat) (rest : List (List Nat))
      (shares : List ShareRecord),
      (∀ j, j < 8 → readUInt32LE ([r1, r2, r3, r4, r5, r6, r7, r8].getD j []) 12
        = some (expectedStatuses.getD j 0)) →
      (∃ tid, readUInt32LE r4 40 = some tid) →
      (∃ v, readUInt32LE r8 100 = some v ∧ parseShares (r8.drop (v + 4)) = some shares) →
      (enumerateShares host t1 t3
        (r1 :: r2 :: r3 :: r4 :: r5 :: r6 :: r7 :: r8 :: r9 :: rest)).sharesOf
        = some shares) := by
  constructor
  · intro host t1 t3 r1 r2 r3 r4 r5 r6 r7 r8 rest k s hk hgood hbad hne htree
    unfold enumerateShares
    interval_cases k
    · exact runCheck_fail
        (show readUInt32LE r1 12 = some s from hbad)
        (show s ≠ 0 from hne)
    · have hg0 : readUInt32LE r1 12 = some 0 := hgood 0 (by omega)
      simp only [sendReq_some NEGOTIATE rfl, awaitResp_cons, runCheck_pass hg0,
        sendReq_some SESSION_SETUP rfl]
      exact runCheck_fail
        (show readUInt32LE r2 12 = some s from hbad)
        (show s ≠ 0xC0000016 from hne)
    · have hg0 : readUInt32LE r1 12 = some 0 := hgood 0 (by omega)
      have hg1 : readUInt32LE r2 12 = some 0xC0000016 := hgood 1 (by omega)
      simp only [sendReq_some NEGOTIATE rfl, awaitResp_cons, runCheck_pass hg0,
        sendReq_some SESSION_SETUP rfl, runCheck_pass hg1]
      exact runCheck_fail
        (show readUInt32LE r3 12 = some s from hbad)
        (show s ≠ 0 from hne)
    · have hg0 : readUInt32LE r1 12 = some 0 := hgood 0 (by omega)
      have hg1 : readUInt32LE r2 12 = some 0xC0000016 := hgood 1 (by omega)
      have hg2 : readUInt32LE r3 12 = some 0 := hgood 2 (by omega)
      simp only [sendReq_some NEGOTIATE rfl, awaitResp_cons, runCheck_pass hg0,
        sendReq_some SESSION_SETUP rfl, runCheck_pass hg1, runCheck_pass hg2,
        sendReq_some TREE_CONNECT rfl]
      exact runCheck_fail
        (show readUInt32LE r4 12 = some s from hbad)
        (show s ≠ 0 from hne)
    · have hg0 : readUInt32LE r1 12 = some 0 := hgood 0 (by omega)
      have hg1 : readUInt32LE r2 12 = some 0xC0000016 := hgood 1 (by omega)
      have hg2 : readUInt32LE r3 12 = some 0 := hgood 2 (by omega)
      have hg3 : readUInt32LE r4 12 = some 0 := hgood 3 (by omega)
      obtain ⟨tid, htid⟩ := htree (by omega)
      simp only [sendReq_some NEGOTIATE rfl, awaitResp_cons, runCheck_pass hg0,
        sendReq_some SESSION_SETUP rfl, runCheck_pass hg1, runCheck_pass hg2,
        sendReq_some TREE_CONNECT rfl, runCheck_pass hg3, readField_eq htid,
        sendReq_some CREATE rfl]
      exact runCheck_fail
        (show readUInt32LE r5 12 = some s from hbad)
        (show s ≠ 0 from hne)
    · have hg0 : readUInt32LE r1 12 = some 0 := hgood 0 (by omega)
      have hg1 : readUInt32LE r2 12 = some 0xC0000016 := hgood 1 (by omega)
      have hg2 : readUInt32LE r3 12 = some 0 := hgood 2 (by omega)
      have hg3 : readUInt32LE r4 12 = some 0 := hgood 3 (by omega)
      have hg4 : readUInt32LE r5 12 = some 0 := hgood 4 (by omega)
      obtain ⟨tid, htid⟩ := htree (by omega)
      simp only [sendReq_some NEGOTIATE rfl, awaitResp_cons, runCheck_pass hg0,
        sendReq_some SESSION_SETUP rfl, runCheck_pass hg1, runCheck_pass hg2,
        sendReq_some TREE_CONNECT rfl, runCheck_pass hg3, readField_eq htid,
        sendReq_some CREATE rfl, runCheck_pass hg4, sendReq_some WRITE rfl]
      exact runCheck_fail
        (show readUInt32LE r6 12 = some s from hbad)
        (show s ≠ 0 from hne)
    · have hg0 : readUInt32LE r1 12 = some 0 := hgood 0 (by omega)
      have hg1 : readUInt32LE r2 12 = some 0xC0000016 := hgood 1 (by omega)
      have hg2 : readUInt32LE r3 12 = some 0 := hgood 2 (by omega)
      have hg3 : readUInt32LE r4 12 = some 0 := hgood 3 (by omega)
      have hg4 : readUInt32LE r5 12 = some 0 := hgood 4 (by omega)
      have hg5 : readUInt32LE r6 12 = some 0 := hgood 5 (by omega)
      obtain ⟨tid, htid⟩ := htree (by omega)
      simp only [sendReq_some NEGOTIATE rfl, awaitResp_cons, runCheck_pass hg0,
        sendReq_some SESSION_SETUP rfl, runCheck_pass hg1, runCheck_pass hg2,
        sendReq_some TREE_CONNECT rfl, runCheck_pass hg3, readField_eq htid,
        sendReq_some CREATE rfl, runCheck_pass hg4, sendReq_some WRITE rfl,
        runCheck_pass hg5, sendReq_some READ rfl]
      exact runCheck_fail
        (show readUInt32LE r7 12 = some s from hbad)
        (show s ≠ 0 from hne)
    · have hg0 : readUInt32LE r1 12 = some 0 := hgood 0 (by omega)
      have hg1 : readUInt32LE r2 12 = some 0xC0000016 := hgood 1 (by omega)
      have hg2 : readUInt32LE r3 12 = some 0 := hgood 2 (by omega)
      have hg3 : readUInt32LE r4 12 = some 0 := hgood 3 (by omega)
      have hg4 : readUInt32LE r5 12 = some 0 := hgood 4 (by omega)
      have hg5 : readUInt32LE r6 12 = some 0 := hgood 5 (by omega)
      have hg6 : readUInt32LE r7 12 = some 0 := hgood 6 (by omega)
      obtain ⟨tid, htid⟩ := htree (by omega)
      simp only [sendReq_some NEGOTIATE rfl, awaitResp_cons, runCheck_pass hg0,
        sendReq_some SESSION_SETUP rfl, runCheck_pass hg1, runCheck_pass hg2,
        sendReq_some TREE_CONNECT rfl, runCheck_pass hg3, readField_eq htid,
        sendReq_some CREATE rfl, runCheck_pass hg4, sendReq_some WRITE rfl,
        runCheck_pass hg5, sendReq_some READ rfl, runCheck_pass hg6,
        sendReq_some IOCTL rfl]
      exact runCheck_fail
        (show readUInt32LE r8 12 = some s from hbad)
        (show s ≠ 0 from hne)
  · intro host t1 t3 r1 r2 r3 r4 r5 r6 r7 r8 r9 rest shares hgood htree hres
    have hg0 : readUInt32LE r1 12 = some 0 := hgood 0 (by omega)
    have hg1 : readUInt32LE r2 12 = some 0xC0000016 := hgood 1 (by omega)
    have hg2 : readUInt32LE r3 12 = some 0 := hgood 2 (by omega)
    have hg3 : readUInt32LE r4 12 = some 0 := hgood 3 (by omega)
    have hg4 : readUInt32LE r5 12 = some 0 := hgood 4 (by omega)
    have hg5 : readUInt32LE r6 12 = some 0 := hgood 5 (by omega)
    have hg6 : readUInt32LE r7 12 = some 0 := hgood 6 (by omega)
    have hg7 : readUInt32LE r8 12 = some 0 := hgood 7 (by omega)
    obtain ⟨tid, htid⟩ := htree
    obtain ⟨v, hv, hp⟩ := hres
    unfold enumerateShares
    simp only [sendReq_some NEGOTIATE rfl, awaitResp_cons, runCheck_pass hg0,
      sendReq_some SESSION_SETUP rfl, runCheck_pass hg1, runCheck_pass hg2,
      sendReq_some TREE_CONNECT rfl, runCheck_pass hg3, readField_eq htid,
      sendReq_some CREATE rfl, runCheck_pass hg4, sendReq_some WRITE rfl,
      runCheck_pass hg5, sendReq_some READ rfl, runCheck_pass hg6,
      sendReq_some IOCTL rfl, runCheck_pass hg7, readField_eq hv, parseStep_eq hp,
      sendReq_some CLOSE rfl]
    rfl

/-- Concrete instance of the first half of `enumerateShares_status_checks`:
a NEGOTIATE response with status 5 aborts the run with a status error. -/
theorem enumerateShares_status_checks_witness :
    (enumerateShares "h" [] (fun _ => [])
      ((List.replicate 12 0 ++ [5, 0, 0, 0]) :: okResp :: okResp :: okResp :: okResp ::
        okResp :: okResp :: okResp :: [])).isStatusError = true :=
  enumerateShares_status_checks.1 "h" [] (fun _ => [])
    (List.replicate 12 0 ++ [5, 0, 0, 0]) okResp okResp okResp okResp okResp okResp okResp
    [] 0 5 (by omega) (fun j hj => absurd hj (by omega)) (by decide) (by decide)
    (fun h4 => absurd h4 (by omega))

/-- C5 counterexample: with the eight validated steps succeeding and the
CLOSE response carrying `STATUS_ACCESS_DENIED` (0xC0000022 ≠ 0, the status
the specification says CLOSE expects), the operation does not abort — it
still returns the parsed share list. -/
theorem enumerateShares_close_status_ignored :
    readUInt32LE closeDeniedResp 12 = some 0xc0000022 ∧
    (0xc0000022 : Nat) ≠ 0 ∧
    (enumerateShares "h" [] (fun _ => []) closeDeniedEnv).sharesOf =
      some [⟨some .DISK_TREE, false, false, "PUBLIC", ""⟩,
            ⟨some .DISK_TREE, true, false, "ADMIN$", "Remote Admin"⟩] :=
  ⟨by decide, by decide, by decide⟩

theorem authCharOk_props {c : Char} (h : authCharOk c = true) :
    isDotChar c = true ∧ c ≠ ';' ∧ c ≠ ':' ∧ c ≠ '@' := by
  simp only [authCharOk, Bool.and_eq_true, bne_iff_ne, ne_eq] at h
  exact ⟨h.1.1.1, h.1.1.2, h.1.2, h.2⟩

theorem hostCharOk_props {c : Char} (h : hostCharOk c = true) :
    isHostChar c = true ∧ c ≠ '@' ∧ c ≠ ';' := by
  simp only [hostCharOk, Bool.and_eq_true, bne_iff_ne, ne_eq] at h
  simp only [isHostChar, Bool.and_eq_true, bne_iff_ne, ne_eq]
  exact ⟨⟨h.1.1.1, h.1.1.2⟩, h.1.2, h.2⟩

theorem isDigitChar_props {c : Char} (h : isDigitChar c = true) :
    c ≠ ';' ∧ c ≠ ':' ∧ c ≠ '@' := by
  have h' := of_decide_eq_true h
  refine ⟨?_, ?_, ?_⟩ <;> intro he <;> subst he <;> exact absurd h' (by decide)

theorem string_data_ne_nil {s : String} (h : s ≠ "") : s.data ≠ [] := by
  intro hd
  apply h
  cases s with
  | mk l =>
    simp only [String.data] at hd
    subst hd
    rfl

theorem tryLazy_none {α : Type} : ∀ (s : List Char) (K : List Char → List Char → Option α),
    (∀ cap rest, rest <:+ s → K cap rest = none) → tryLazy K s = none := by
  intro s
  induction s with
  | nil =>
    intro K h
    exact h [] [] (List.suffix_refl _)
  | cons c r ih =>
    intro K h
    simp only [tryLazy, List.append_eq]
    rw [h [] (c :: r) (List.suffix_refl _), Option.none_orElse]
    split
    · exact ih _ (fun cap rest hrest => h (c :: cap) rest (hrest.trans (List.suffix_cons c r)))
    · rfl

theorem tryLazy_found {α : Type} : ∀ (pre post : List Char)
    (K : List Char → List Char → Option α) (v : α),
    (∀ c ∈ pre, isDotChar c = true) →
    (∀ i, i < pre.length → K (pre.take i) (pre.drop i ++ post) = none) →
    K pre post = some v →
    tryLazy K (pre ++ post) = some v := by
  intro pre
  induction pre with
  | nil =>
    intro post K v _ _ hsucc
    cases post with
    | nil => simpa [tryLazy] using hsucc
    | cons c r =>
      simp only [List.nil_append, tryLazy, List.append_eq]
      rw [hsucc]
      rfl
  | cons d pre' ih =>
    intro post K v hdot hfail hsucc
    simp only [List.cons_append, tryLazy, List.append_eq]
    have h0 : K [] (d :: (pre' ++ post)) = none := by
      have := hfail 0 (by simp)
      simpa using this
    rw [h0, Option.none_orElse, if_pos (hdot d (by simp))]
    refine ih post (fun cap rest => K (d :: cap) rest) v
      (fun c hc => hdot c (by simp [hc])) (fun i hi => ?_) hsucc
    have := hfail (i + 1) (by simp; omega)
    simpa using this

theorem drop_eq_get_cons {l : List Char} {i : Nat} (h : i < l.length) :
    l.drop i = l.get (Fin.mk i h) :: l.drop (i + 1) :=
  List.drop_eq_getElem_cons h

theorem matchUserPassThen_none {α : Type} (s : List Char)
    (k : List Char → Option (List Char) → List Char → Option α)
    (hat : '@' ∉ s) : matchUserPassThen s k = none := by
  unfold matchUserPassThen
  apply tryLazy_none
  intro cap rest hrest
  beta_reduce
  have hrs : ∀ x ∈ rest, x ∈ s := fun x hx => hrest.subset hx
  have hb1 : (match rest with
      | ':' :: r2 =>
        tryLazy (fun p r3 =>
          match r3 with
          | '@' :: r4 => k cap (some p) r4
          | _ => none) r2
      | _ => none) = none := by
    split
    · rename_i r2
      apply tryLazy_none
      intro p r3 hr3
      beta_reduce
      split
      · rename_i r4
        exfalso
        apply hat
        apply hrs
        exact List.mem_cons_of_mem ':' (hr3.subset (List.mem_cons_self '@' r4))
      · rfl
    · rfl
  have hb2 : (match rest with
      | '@' :: r4 => k cap none r4
      | _ => none) = none := by
    split
    · exfalso
      exact hat (hrs '@' (List.mem_cons_self '@' _))
    · rfl
  rw [hb1, hb2]
  rfl

theorem matchUserPassThen_pass {α : Type} (U P rest : List Char)
    (k : List Char → Option (List Char) → List Char → Option α) (v : α)
    (hU : ∀ c ∈ U, authCharOk c = true) (hP : ∀ c ∈ P, authCharOk c = true)
    (hk : k U (some P) rest = some v) :
    matchUserPassThen (U ++ ':' :: (P ++ '@' :: rest)) k = some v := by
  unfold matchUserPassThen
  apply tryLazy_found U (':' :: (P ++ '@' :: rest)) _ v
  · exact fun c hc => (authCharOk_props (hU c hc)).1
  · intro i hi
    beta_reduce
    rw [drop_eq_get_cons hi]
    have hui := authCharOk_props (hU (U.get (Fin.mk i hi)) (List.get_mem U i hi))
    have hb1 : (match (U.get (Fin.mk i hi)) :: (List.drop (i + 1) U ++ ':' :: (P ++ '@' :: rest)) with
        | ':' :: r2 =>
          tryLazy (fun p r3 =>
            match r3 with
            | '@' :: r4 => k (List.take i U) (some p) r4
            | _ => none) r2
        | _ => none) = none := by
      split
      · rename_i r2 heq
        exfalso
        exact hui.2.2.1 (List.head_eq_of_cons_eq heq)
      · rfl
    have hb2 : (match (U.get (Fin.mk i hi)) :: (List.drop (i + 1) U ++ ':' :: (P ++ '@' :: rest)) with
        | '@' :: r4 => k (List.take i U) none r4
        | _ => none) = none := by
      split
      · rename_i r4 heq
        exfalso
        exact hui.2.2.2 (List.head_eq_of_cons_eq heq)
      · rfl
    rw [List.cons_append, hb1, hb2]
    rfl
  · beta_reduce
    have h1 : tryLazy (fun p r3 =>
        match r3 with
        | '@' :: r4 => k U (some p) r4
        | _ => none) (P ++ '@' :: rest) = some v := by
      apply tryLazy_found P ('@' :: rest) _ v
      · exact fun c hc => (authCharOk_props (hP c hc)).1
      · intro i hi
        beta_reduce
        rw [drop_eq_get_cons hi]
        have hpi := authCharOk_props (hP (P.get (Fin.mk i hi)) (List.get_mem P i hi))
        rw [List.cons_append]
        split
        · rename_i r4 heq
          exfalso
          exact hpi.2.2.2 (List.head_eq_of_cons_eq heq)
        · rfl
      · exact hk
    show (tryLazy (fun p r3 =>
        match r3 with
        | '@' :: r4 => k U (some p) r4
        | _ => none) (P ++ '@' :: rest) <|> none) = some v
    rw [h1]
    rfl

theorem matchUserPassThen_nopass {α : Type} (U rest : List Char)
    (k : List Char → Option (List Char) → List Char → Option α) (v : α)
    (hU : ∀ c ∈ U, authCharOk c = true)
    (hk : k U none rest = some v) :
    matchUserPassThen (U ++ '@' :: rest) k = some v := by
  unfold matchUserPassThen
  apply tryLazy_found U ('@' :: rest) _ v
  · exact fun c hc => (authCharOk_props (hU c hc)).1
  · intro i hi
    beta_reduce
    rw [drop_eq_get_cons hi]
    have hui := authCharOk_props (hU (U.get (Fin.mk i hi)) (List.get_mem U i hi))
    have hb1 : (match (U.get (Fin.mk i hi)) :: (List.drop (i + 1) U ++ '@' :: rest) with
        | ':' :: r2 =>
          tryLazy (fun p r3 =>
            match r3 with
            | '@' :: r4 => k (List.take i U) (some p) r4
            | _ => none) r2
        | _ => none) = none := by
      split
      · rename_i r2 heq
        exfalso
        exact hui.2.2.1 (List.head_eq_of_cons_eq heq)
      · rfl
    have hb2 : (match (U.get (Fin.mk i hi)) :: (List.drop (i + 1) U ++ '@' :: rest) with
        | '@' :: r4 => k (List.take i U) none r4
        | _ => none) = none := by
      split
      · rename_i r4 heq
        exfalso
        exact hui.2.2.2 (List.head_eq_of_cons_eq heq)
      · rfl
    rw [List.cons_append, hb1, hb2]
    rfl
  · beta_reduce
    show ((none : Option α) <|> k U none rest) = some v
    rw [Option.none_orElse]
    exact hk

theorem matchAuthThen_dom {α : Type} (D s2 : List Char)
    (k : Option (List Char) → List Char → Option (List Char) → List Char → Option α)
    (nA : Option α) (v : α)
    (hD : ∀ c ∈ D, authCharOk c = true)
    (h : matchUserPassThen s2 (k (some D)) = some v) :
    matchAuthThen (D ++ ';' :: s2) k nA = some v := by
  unfold matchAuthThen
  have h1 : tryLazy (fun d rest =>
      match rest with
      | ';' :: r2 => matchUserPassThen r2 (k (some d))
      | _ => none) (D ++ ';' :: s2) = some v := by
    apply tryLazy_found D (';' :: s2) _ v
    · exact fun c hc => (authCharOk_props (hD c hc)).1
    · intro i hi
      beta_reduce
      rw [drop_eq_get_cons hi]
      have hdi := authCharOk_props (hD (D.get (Fin.mk i hi)) (List.get_mem D i hi))
      rw [List.cons_append]
      split
      · rename_i r2 heq
        exfalso
        exact hdi.2.1 (List.head_eq_of_cons_eq heq)
      · rfl
    · exact h
  rw [h1]
  rfl

theorem matchAuthThen_nodom {α : Type} (s : List Char)
    (k : Option (List Char) → List Char → Option (List Char) → List Char → Option α)
    (nA : Option α) (hsemi : ';' ∉ s) :
    matchAuthThen s k nA = (matchUserPassThen s (k none) <|> nA) := by
  unfold matchAuthThen
  have h1 : tryLazy (fun d rest =>
      match rest with
      | ';' :: r2 => matchUserPassThen r2 (k (some d))
      | _ => none) s = none := by
    apply tryLazy_none
    intro cap rest hrest
    beta_reduce
    split
    · rename_i r2
      exfalso
      exact hsemi (hrest.subset (List.mem_cons_self ';' r2))
    · rfl
  rw [h1, Option.none_orElse]

theorem matchAuthThen_skip {α : Type} (s : List Char)
    (k : Option (List Char) → List Char → Option (List Char) → List Char → Option α)
    (nA : Option α) (hsemi : ';' ∉ s) (hat : '@' ∉ s) :
    matchAuthThen s k nA = nA := by
  rw [matchAuthThen_nodom s k nA hsemi, matchUserPassThen_none s _ hat,
    Option.none_orElse]

theorem matchHostPort_noport (H : List Char) (hne : H ≠ [])
    (hH : ∀ c ∈ H, isHostChar c = true) :
    matchHostPort H = some (H, none) := by
  have ht : H.takeWhile isHostChar = H := List.takeWhile_eq_self_iff.mpr hH
  have hemp : H.isEmpty = false := by
    cases H with
    | nil => exact absurd rfl hne
    | cons c t => rfl
  unfold matchHostPort
  rw [ht]
  simp only [hemp, Bool.false_eq_true, if_false, List.drop_length]

theorem matchHostPort_port (H ds : List Char) (hne : H ≠ [])
    (hH : ∀ c ∈ H, isHostChar c = true) (hds : ds ≠ [])
    (hdig : ∀ c ∈ ds, isDigitChar c = true) :
    matchHostPort (H ++ ':' :: ds) = some (H, some ds) := by
  have ht : (H ++ ':' :: ds).takeWhile isHostChar = H := by
    rw [List.takeWhile_append_of_pos hH, List.takeWhile_cons_of_neg (by decide),
      List.append_nil]
  have hemp : H.isEmpty = false := by
    cases H with
    | nil => exact absurd rfl hne
    | cons c t => rfl
  have htd : ds.takeWhile isDigitChar = ds := List.takeWhile_eq_self_iff.mpr hdig
  have hdemp : ds.isEmpty = false := by
    cases ds with
    | nil => exact absurd rfl hds
    | cons c t => rfl
  unfold matchHostPort
  rw [ht]
  simp only [hemp, Bool.false_eq_true, if_false, List.drop_left]
  simp only [htd, hdemp, Bool.false_eq_true, if_false]

theorem isEmpty_false_of_ne_nil {l : List Char} (h : l ≠ []) : l.isEmpty = false := by
  cases l with
  | nil => exact absurd rfl h
  | cons c t => rfl

theorem string_mk_data (s : String) : String.mk s.data = s := rfl

theorem char_not_mem_append {x : Char} {a b : List Char} (ha : x ∉ a) (hb : x ∉ b) :
    x ∉ a ++ b := by
  intro hm
  rcases List.mem_append.mp hm with h | h
  · exact ha h
  · exact hb h

theorem char_not_mem_cons {x c : Char} {l : List Char} (hne : x ≠ c) (hl : x ∉ l) :
    x ∉ c :: l := by
  intro hm
  rcases List.mem_cons.mp hm with h | h
  · exact hne h
  · exact hl h

/-- C4 (amended): for every connection string built from the grammar
`smb://[[domain;]username[:password]@]host[:port]` — with delimiter-free
field characters, so the string is unambiguous, and a port of nonzero
numeric value — parsing the string yields exactly the normalized fields of
the corresponding configuration object, omitted fields taking the defaults
port 445, username "guest", password "", domain "WORKGROUP", timeout 5000.
(A port of numeric value zero breaks the parity: the parsed port is the
truthy digit string "0", while the number 0 in a configuration object is
falsy and defaults to 445.) -/
theorem parseOptions_grammar_parity
    (auth : Option (Option String × String × Option String)) (host : String)
    (port : Option String)
    (hhostne : host ≠ "") (hhost : ∀ c ∈ host.data, hostCharOk c = true)
    (hauth : ∀ d u p, auth = some (d, u, p) →
      ((∀ dv, d = some dv → ∀ c ∈ dv.data, authCharOk c = true) ∧
       (∀ c ∈ u.data, authCharOk c = true) ∧
       (∀ pv, p = some pv → ∀ c ∈ pv.data, authCharOk c = true)))
    (hport : ∀ ds, port = some ds →
      (ds.data ≠ [] ∧ (∀ c ∈ ds.data, isDigitChar c = true) ∧ digitsToNat ds.data ≠ 0)) :
    parseOptions (grammarUrl auth host port)
      = normalizeConfig (grammarConfig auth host port) := by
  have e0 : ("" : String).data = [] := rfl
  have e1 : ("smb://" : String).data = ['s', 'm', 'b', ':', '/', '/'] := rfl
  have e2 : (";" : String).data = [';'] := rfl
  have e3 : (":" : String).data = [':'] := rfl
  have e4 : ("@" : String).data = ['@'] := rfl
  have hHne : host.data ≠ [] := string_data_ne_nil hhostne
  have hHhost : ∀ c ∈ host.data, isHostChar c = true :=
    fun c hc => (hostCharOk_props (hhost c hc)).1
  have hHsemi : ';' ∉ host.data := fun hm => (hostCharOk_props (hhost ';' hm)).2.2 rfl
  have hHat : '@' ∉ host.data := fun hm => (hostCharOk_props (hhost '@' hm)).2.1 rfl
  rcases auth with _ | ⟨d, u, p⟩
  · rcases port with _ | ds
    · have hNA : smbUrlNoAuth host.data = some ⟨none, none, none, host.data, none⟩ := by
        rw [smbUrlNoAuth, matchHostPort_noport host.data hHne hHhost]
        rfl
      unfold parseOptions
      simp only [grammarUrl, e0, e1, String.data_append, List.cons_append,
        List.singleton_append, List.append_assoc, List.nil_append, List.append_nil,
        smbUrlMatch]
      rw [matchAuthThen_skip _ _ _ hHsemi hHat, hNA]
      simp [normalizeConfig, grammarConfig, jsOrString, jsOrNat, string_mk_data, hhostne]
    · obtain ⟨hdsne, hdig, hdsnz⟩ := hport ds rfl
      have hDsemi : ';' ∉ ds.data := fun hm => (isDigitChar_props (hdig ';' hm)).1 rfl
      have hDat : '@' ∉ ds.data := fun hm => (isDigitChar_props (hdig '@' hm)).2.2 rfl
      have hsemi : ';' ∉ host.data ++ ':' :: ds.data :=
        char_not_mem_append hHsemi (char_not_mem_cons (by decide) hDsemi)
      have hat : '@' ∉ host.data ++ ':' :: ds.data :=
        char_not_mem_append hHat (char_not_mem_cons (by decide) hDat)
      have hNA : smbUrlNoAuth (host.data ++ ':' :: ds.data)
          = some ⟨none, none, none, host.data, some ds.data⟩ := by
        rw [smbUrlNoAuth, matchHostPort_port host.data ds.data hHne hHhost hdsne hdig]
        rfl
      unfold parseOptions
      simp only [grammarUrl, e0, e1, e3, String.data_append, List.cons_append,
        List.singleton_append, List.append_assoc, List.nil_append, List.append_nil,
        smbUrlMatch]
      rw [matchAuthThen_skip _ _ _ hsemi hat, hNA]
      simp [normalizeConfig, grammarConfig, jsOrString, jsOrNat, string_mk_data, hhostne,
        isEmpty_false_of_ne_nil hdsne, hdsnz]
  · obtain ⟨hd, hu, hpv⟩ := hauth d u p rfl
    have hUsemi : ';' ∉ u.data := fun hm => (authCharOk_props (hu ';' hm)).2.1 rfl
    rcases d with _ | D <;> rcases p with _ | P <;> rcases port with _ | ds
    · -- smb://u@host
      have hsemi : ';' ∉ u.data ++ '@' :: host.data :=
        char_not_mem_append hUsemi (char_not_mem_cons (by decide) hHsemi)
      have hHP := matchHostPort_noport host.data hHne hHhost
      have hMP : matchUserPassThen (u.data ++ '@' :: host.data) (smbUrlAuthCont none)
          = some ⟨none, some u.data, none, host.data, none⟩ :=
        matchUserPassThen_nopass _ _ _ _ hu (by simp [smbUrlAuthCont, hHP])
      unfold parseOptions
      simp only [grammarUrl, e0, e1, e4, String.data_append, List.cons_append,
        List.singleton_append, List.append_assoc, List.nil_append, List.append_nil,
        smbUrlMatch]
      rw [matchAuthThen_nodom _ _ _ hsemi, hMP, Option.some_orElse]
      simp [normalizeConfig, grammarConfig, jsOrString, jsOrNat, string_mk_data, hhostne]
    · -- smb://u@host:port
      obtain ⟨hdsne, hdig, hdsnz⟩ := hport ds rfl
      have hDsemi : ';' ∉ ds.data := fun hm => (isDigitChar_props (hdig ';' hm)).1 rfl
      have hsemi : ';' ∉ u.data ++ '@' :: (host.data ++ ':' :: ds.data) :=
        char_not_mem_append hUsemi (char_not_mem_cons (by decide)
          (char_not_mem_append hHsemi (char_not_mem_cons (by decide) hDsemi)))
      have hHP := matchHostPort_port host.data ds.data hHne hHhost hdsne hdig
      have hMP : matchUserPassThen (u.data ++ '@' :: (host.data ++ ':' :: ds.data))
          (smbUrlAuthCont none)
          = some ⟨none, some u.data, none, host.data, some ds.data⟩ :=
        matchUserPassThen_nopass _ _ _ _ hu (by simp [smbUrlAuthCont, hHP])
      unfold parseOptions
      simp only [grammarUrl, e0, e1, e3, e4, String.data_append, List.cons_append,
        List.singleton_append, List.append_assoc, List.nil_append, List.append_nil,
        smbUrlMatch]
      rw [matchAuthThen_nodom _ _ _ hsemi, hMP, Option.some_orElse]
      simp [normalizeConfig, grammarConfig, jsOrString, jsOrNat, string_mk_data, hhostne,
        isEmpty_false_of_ne_nil hdsne, hdsnz]
    · -- smb://u:P@host
      have hPm := hpv P rfl
      have hPsemi : ';' ∉ P.data := fun hm => (authCharOk_props (hPm ';' hm)).2.1 rfl
      have hsemi : ';' ∉ u.data ++ ':' :: (P.data ++ '@' :: host.data) :=
        char_not_mem_append hUsemi (char_not_mem_cons (by decide)
          (char_not_mem_append hPsemi (char_not_mem_cons (by decide) hHsemi)))
      have hHP := matchHostPort_noport host.data hHne hHhost
      have hMP : matchUserPassThen (u.data ++ ':' :: (P.data ++ '@' :: host.data))
          (smbUrlAuthCont none)
          = some ⟨none, some u.data, some P.data, host.data, none⟩ :=
        matchUserPassThen_pass _ _ _ _ _ hu hPm (by simp [smbUrlAuthCont, hHP])
      unfold parseOptions
      simp only [grammarUrl, e0, e1, e3, e4, String.data_append, List.cons_append,
        List.singleton_append, List.append_assoc, List.nil_append, List.append_nil,
        smbUrlMatch]
      rw [matchAuthThen_nodom _ _ _ hsemi, hMP, Option.some_orElse]
      simp [normalizeConfig, grammarConfig, jsOrString, jsOrNat, string_mk_data, hhostne]
    · -- smb://u:P@host:port
      obtain ⟨hdsne, hdig, hdsnz⟩ := hport ds rfl
      have hPm := hpv P rfl
      have hPsemi : ';' ∉ P.data := fun hm => (authCharOk_props (hPm ';' hm)).2.1 rfl
      have hDsemi : ';' ∉ ds.data := fun hm => (isDigitChar_props (hdig ';' hm)).1 rfl
      have hsemi : ';' ∉ u.data ++ ':' :: (P.data ++ '@' :: (host.data ++ ':' :: ds.data)) :=
        char_not_mem_append hUsemi (char_not_mem_cons (by decide)
          (char_not_mem_append hPsemi (char_not_mem_cons (by decide)
            (char_not_mem_append hHsemi (char_not_mem_cons (by decide) hDsemi)))))
      have hHP := matchHostPort_port host.data ds.data hHne hHhost hdsne hdig
      have hMP : matchUserPassThen
          (u.data ++ ':' :: (P.data ++ '@' :: (host.data ++ ':' :: ds.data)))
          (smbUrlAuthCont none)
          = some ⟨none, some u.data, some P.data, host.data, some ds.data⟩ :=
        matchUserPassThen_pass _ _ _ _ _ hu hPm (by simp [smbUrlAuthCont, hHP])
      unfold parseOptions
      simp only [grammarUrl, e0, e1, e3, e4, String.data_append, List.cons_append,
        List.singleton_append, List.append_assoc, List.nil_append, List.append_nil,
        smbUrlMatch]
      rw [matchAuthThen_nodom _ _ _ hsemi, hMP, Option.some_orElse]
      simp [normalizeConfig, grammarConfig, jsOrString, jsOrNat, string_mk_data, hhostne,
        isEmpty_false_of_ne_nil hdsne, hdsnz]
    · -- smb://D;u@host
      have hDm := hd D rfl
      have hHP := matchHostPort_noport host.data hHne hHhost
      have hMP : matchUserPassThen (u.data ++ '@' :: host.data)
          (smbUrlAuthCont (some D.data))
          = some ⟨some D.data, some u.data, none, host.data, none⟩ :=
        matchUserPassThen_nopass _ _ _ _ hu (by simp [smbUrlAuthCont, hHP])
      have hMA : matchAuthThen (D.data ++ ';' :: (u.data ++ '@' :: host.data))
          smbUrlAuthCont (smbUrlNoAuth (D.data ++ ';' :: (u.data ++ '@' :: host.data)))
          = some ⟨some D.data, some u.data, none, host.data, none⟩ :=
        matchAuthThen_dom _ _ _ _ _ hDm hMP
      unfold parseOptions
      simp only [grammarUrl, e0, e1, e2, e4, String.data_append, List.cons_append,
        List.singleton_append, List.append_assoc, List.nil_append, List.append_nil,
        smbUrlMatch]
      rw [hMA]
      simp [normalizeConfig, grammarConfig, jsOrString, jsOrNat, string_mk_data, hhostne]
    · -- smb://D;u@host:port
      obtain ⟨hdsne, hdig, hdsnz⟩ := hport ds rfl
      have hDm := hd D rfl
      have hHP := matchHostPort_port host.data ds.data hHne hHhost hdsne hdig
      have hMP : matchUserPassThen (u.data ++ '@' :: (host.data ++ ':' :: ds.data))
          (smbUrlAuthCont (some D.data))
          = some ⟨some D.data, some u.data, none, host.data, some ds.data⟩ :=
        matchUserPassThen_nopass _ _ _ _ hu (by simp [smbUrlAuthCont, hHP])
      have hMA : matchAuthThen
          (D.data ++ ';' :: (u.data ++ '@' :: (host.data ++ ':' :: ds.data)))
          smbUrlAuthCont
          (smbUrlNoAuth (D.data ++ ';' :: (u.data ++ '@' :: (host.data ++ ':' :: ds.data))))
          = some ⟨some D.data, some u.data, none, host.data, some ds.data⟩ :=
        matchAuthThen_dom _ _ _ _ _ hDm hMP
      unfold parseOptions
      simp only [grammarUrl, e0, e1, e2, e3, e4, String.data_append, List.cons_append,
        List.singleton_append, List.append_assoc, List.nil_append, List.append_nil,
        smbUrlMatch]
      rw [hMA]
      simp [normalizeConfig, grammarConfig, jsOrString, jsOrNat, string_mk_data, hhostne,
        isEmpty_false_of_ne_nil hdsne, hdsnz]
    · -- smb://D;u:P@host
      have hDm := hd D rfl
      have hPm := hpv P rfl
      have hHP := matchHostPort_noport host.data hHne hHhost
      have hMP : matchUserPassThen (u.data ++ ':' :: (P.data ++ '@' :: host.data))
          (smbUrlAuthCont (some D.data))
          = some ⟨some D.data, some u.data, some P.data, host.data, none⟩ :=
        matchUserPassThen_pass _ _ _ _ _ hu hPm (by simp [smbUrlAuthCont, hHP])
      have hMA : matchAuthThen
          (D.data ++ ';' :: (u.data ++ ':' :: (P.data ++ '@' :: host.data)))
          smbUrlAuthCont
          (smbUrlNoAuth (D.data ++ ';' :: (u.data ++ ':' :: (P.data ++ '@' :: host.data))))
          = some ⟨some D.data, some u.data, some P.data, host.data, none⟩ :=
        matchAuthThen_dom _ _ _ _ _ hDm hMP
      unfold parseOptions
      simp only [grammarUrl, e0, e1, e2, e3, e4, String.data_append, List.cons_append,
        List.singleton_append, List.append_assoc, List.nil_append, List.append_nil,
        smbUrlMatch]
      rw [hMA]
      simp [normalizeConfig, grammarConfig, jsOrString, jsOrNat, string_mk_data, hhostne]
    · -- smb://D;u:P@host:port
      obtain ⟨hdsne, hdig, hdsnz⟩ := hport ds rfl
      have hDm := hd D rfl
      have hPm := hpv P rfl
      have hHP := matchHostPort_port host.data ds.data hHne hHhost hdsne hdig
      have hMP : matchUserPassThen
          (u.data ++ ':' :: (P.data ++ '@' :: (host.data ++ ':' :: ds.data)))
          (smbUrlAuthCont (some D.data))
          = some ⟨some D.data, some u.data, some P.data, host.data, some ds.data⟩ :=
        matchUserPassThen_pass _ _ _ _ _ hu hPm (by simp [smbUrlAuthCont, hHP])
      have hMA : matchAuthThen
          (D.data ++ ';' :: (u.data ++ ':' :: (P.data ++ '@' :: (host.data ++ ':' :: ds.data))))
          smbUrlAuthCont
          (smbUrlNoAuth
            (D.data ++ ';' :: (u.data ++ ':' :: (P.data ++ '@' :: (host.data ++ ':' :: ds.data)))))
          = some ⟨some D.data, some u.data, some P.data, host.data, some ds.data⟩ :=
        matchAuthThen_dom _ _ _ _ _ hDm hMP
      unfold parseOptions
      simp only [grammarUrl, e0, e1, e2, e3, e4, String.data_append, List.cons_append,
        List.singleton_append, List.append_assoc, List.nil_append, List.append_nil,
        smbUrlMatch]
      rw [hMA]
      simp [normalizeConfig, grammarConfig, jsOrString, jsOrNat, string_mk_data, hhostne,
        isEmpty_false_of_ne_nil hdsne, hdsnz]

/-- Concrete instance of `parseOptions_grammar_parity`: a full grammar
string with domain, username, password, host and port. -/
theorem parseOptions_grammar_parity_witness :
    parseOptions (grammarUrl (some (some "dom", "usr", some "pw")) "srv" (some "139"))
      = normalizeConfig (grammarConfig (some (some "dom", "usr", some "pw")) "srv"
          (some "139")) :=
  parseOptions_grammar_parity (some (some "dom", "usr", some "pw")) "srv" (some "139")
    (by decide) (by decide)
    (fun d u p heq => by
      cases heq
      exact ⟨fun dv hdv => by cases hdv; decide, by decide, fun pv hpv => by cases hpv; decide⟩)
    (fun ds hds => by cases hds; exact ⟨by decide, by decide, by decide⟩)

/-- C4 counterexample: for the grammar string `smb://h:0` the parsed port
is 0 (the digit string "0" is truthy in JS), while the corresponding
configuration object `{host: "h", port: 0}` defaults its falsy port to
445 — the parity fails. -/
theorem parseOptions_port_zero_breaks_parity :
    parseOptions (grammarUrl none "h" (some "0"))
      ≠ normalizeConfig (grammarConfig none "h" (some "0")) := by
  decide

/-- Concrete instance of `confirmStatus_mismatch`: status
`STATUS_ACCESS_DENIED` where success was expected. -/
theorem confirmStatus_mismatch_witness :
    (confirmStatus initialState 0xc0000022 0).1.alive = false ∧
    (confirmStatus initialState 0xc0000022 0).2 = some "STATUS_ACCESS_DENIED" :=
  ⟨(confirmStatus_mismatch initialState 0xc0000022 0 (by decide)).1,
   (confirmStatus_mismatch initialState 0xc0000022 0 (by decide)).2.1
     "STATUS_ACCESS_DENIED" (by decide)⟩

end Smb
